import Mathlib

/-!
Shallow embedding of the mcp-glootie execution subsystem, translated from the
JavaScript sources:

* `src/background-tasks.js` — the `BackgroundTaskStore` class (task records,
  status lifecycle, bounded output log, eviction sweep, shutdown);
* `src/workers/worker-pool.js` — the `WorkerPool.execute` fail-fast checks and
  the result record built in `handleWorkerMessage`;
* the isolation worker (`isolation-worker.js`) — the `CONFIGS` runtime table,
  the unsupported-runtime branch of `executeInProcess`, and the stdout/stderr
  stream accumulators with their `MAX_BUFFER` trimming;
* `src/tools/executor-tool-isolated.js` — the response mapping of the
  execution handler.

JavaScript strings are modelled as lists of UTF-16 code units (`JSStr`), so
that `s.length` in the source is `List.length` here.  JavaScript `Map`s are
modelled as insertion-ordered association lists; `Map.get` is `mapGet`,
`Map.set` is `mapSet` (replace in place, else append), `Map.delete` is
`mapDelete`.  `Date.now()` is passed in explicitly as a `now : Nat` argument.
Numeric fields are `Nat`/`Int`; the only fractional constant in the sources,
`maxOutputSize * 0.5` compared with an integer total via `>`, is rendered as
the integer comparison `total > maxOutputSize / 2`, which agrees with the
JavaScript comparison against `m * 0.5` for every natural `m` (for odd `m`,
`total > m/2 + 0.5` iff `total > m/2` rounded down).  `Math.ceil (m * 0.5)` is
`(m + 1) / 2`.
-/

namespace Glootie

/-- A JavaScript string viewed as its sequence of UTF-16 code units. -/
abbrev JSStr := List Char

/-! ### Ordered-map primitives (JavaScript `Map` on `Nat` keys) -/

/-- `Map.prototype.get`: the value of the first entry with the given key. -/
def mapGet {α : Type} (m : List (Nat × α)) (k : Nat) : Option α :=
  match m with
  | [] => none
  | e :: rest => if e.1 = k then some e.2 else mapGet rest k

/-- `Map.prototype.set`: replace the entry in place if the key exists,
otherwise append a new entry (JavaScript `Map` preserves insertion order). -/
def mapSet {α : Type} (m : List (Nat × α)) (k : Nat) (v : α) : List (Nat × α) :=
  match m with
  | [] => [(k, v)]
  | e :: rest => if e.1 == k then (k, v) :: rest else e :: mapSet rest k v

/-- `Map.prototype.delete`. -/
def mapDelete {α : Type} (m : List (Nat × α)) (k : Nat) : List (Nat × α) :=
  m.filter (fun e => !(e.1 == k))

/-- Update the value stored at a key in place, leaving the map unchanged when
the key is absent (the pattern `const t = map.get(id); if (t) mutate t`). -/
def mapUpdate {α : Type} (m : List (Nat × α)) (k : Nat) (f : α → α) : List (Nat × α) :=
  m.map (fun e => if e.1 == k then (e.1, f e.2) else e)

/-! ### Task records (`src/background-tasks.js`) -/

/-- `task.status`: one of the four strings used by the store. -/
inductive Status where
  | pending
  | running
  | completed
  | failed
deriving DecidableEq, Repr

/-- `status === 'completed' || status === 'failed'`. -/
def Status.isTerminal : Status → Bool
  | .completed => true
  | .failed => true
  | _ => false

/-- One entry of `task.outputLog`: `{ t: timestamp, s: type, d: data }`. -/
structure Chunk where
  t : Nat
  s : String
  d : JSStr
deriving DecidableEq, Repr

/-- The `result` object stored on a task.  `completeTask` stores the worker
result (all fields present); `failTask` and `shutdown` store a bare
`{ error: … }` object, so every field is optional here, mirroring plain
JavaScript objects where absent properties read as `undefined`. -/
structure StoreResult where
  success : Option Bool := none
  exitCode : Option Int := none
  stdout : Option JSStr := none
  stderr : Option JSStr := none
  executionTimeMs : Option Nat := none
  error : Option String := none
deriving DecidableEq, Repr

/-- `{ error: msg }` — the result object written by `failTask` (from
`error.message`) and by `shutdown`. -/
def errorOnlyResult (msg : String) : StoreResult :=
  { error := some msg }

/-- A task record as created by `createTask` and mutated by the store. -/
structure Task where
  id : Nat
  code : String
  runtime : String
  workingDirectory : String
  createdAt : Nat
  startedAt : Option Nat := none
  completedAt : Option Nat := none
  result : Option StoreResult := none
  status : Status := .pending
  outputLog : List Chunk := []
deriving DecidableEq, Repr

/-- JavaScript truthiness of the numeric-or-null `completedAt` field
(`null` and `0` are falsy). -/
def completedAtTruthy : Option Nat → Bool
  | none => false
  | some c => c ≠ 0

/-! ### The background task store -/

/-- The `BackgroundTaskStore` instance state.  `maxAge`, `maxTasks` and
`maxOutputSize` are instance fields set by the constructor; the cleanup timer
handle is not part of the functional state. -/
structure BackgroundTaskStore where
  tasks : List (Nat × Task)
  taskCounter : Nat
  maxAge : Nat
  maxTasks : Nat
  maxOutputSize : Nat
deriving DecidableEq, Repr

namespace BackgroundTaskStore

/-- `new BackgroundTaskStore()`. -/
def new : BackgroundTaskStore :=
  { tasks := []
    taskCounter := 0
    maxAge := 30 * 60 * 1000
    maxTasks := 1000
    maxOutputSize := 100 * 1024 }

/-- `createTask(code, runtime, workingDirectory)`: allocate
`++this.taskCounter`, insert a fresh `pending` record, return its id. -/
def createTask (s : BackgroundTaskStore) (code runtime workingDirectory : String)
    (now : Nat) : BackgroundTaskStore × Nat :=
  let taskId := s.taskCounter + 1
  ({ s with
      taskCounter := taskId
      tasks := mapSet s.tasks taskId
        { id := taskId, code := code, runtime := runtime
          workingDirectory := workingDirectory
          createdAt := now, startedAt := none, completedAt := none
          result := none, status := .pending, outputLog := [] } },
    taskId)

/-- The record mutation of `startTask`. -/
def startedTask (now : Nat) (t : Task) : Task :=
  { t with startedAt := some now, status := Status.running }

/-- `startTask(taskId)`: if present, set `startedAt` and status `running`. -/
def startTask (s : BackgroundTaskStore) (taskId now : Nat) : BackgroundTaskStore :=
  { s with tasks := mapUpdate s.tasks taskId (startedTask now) }

/-- The record mutation of `completeTask`. -/
def completedTask (result : StoreResult) (now : Nat) (t : Task) : Task :=
  { t with completedAt := some now, result := some result, status := Status.completed }

/-- `completeTask(taskId, result)`: if present, set `completedAt`, `result`
and status `completed`. -/
def completeTask (s : BackgroundTaskStore) (taskId : Nat) (result : StoreResult)
    (now : Nat) : BackgroundTaskStore :=
  { s with tasks := mapUpdate s.tasks taskId (completedTask result now) }

/-- The record mutation of `failTask`; `errMsg` is the `message` of the
`Error` argument, stored as `{ error: error.message }`. -/
def failedTask (errMsg : String) (now : Nat) (t : Task) : Task :=
  { t with completedAt := some now, result := some (errorOnlyResult errMsg),
           status := Status.failed }

/-- `failTask(taskId, error)`: if present, set `completedAt`, store
`{ error: error.message }` as the result, and set status `failed`. -/
def failTask (s : BackgroundTaskStore) (taskId : Nat) (errMsg : String)
    (now : Nat) : BackgroundTaskStore :=
  { s with tasks := mapUpdate s.tasks taskId (failedTask errMsg now) }

/-- Replace a task record by its copy carrying the given output log. -/
def withOutputLog (log : List Chunk) (t : Task) : Task :=
  { t with outputLog := log }

/-- Total `e.d.length` over a log — the `reduce((sum, e) => sum + e.d.length, 0)`. -/
def logSize (log : List Chunk) : Nat :=
  (log.map (fun e => e.d.length)).sum

/-- The `while (log.length > 1 && total > cap * 0.5) log.shift()` loop of
`appendOutput`; `half` is `maxOutputSize / 2` (see the header note on the
`* 0.5` comparison). -/
def trimOldest (half : Nat) : List Chunk → List Chunk
  | [] => []
  | [c] => [c]
  | c :: c2 :: cs =>
    if logSize (c :: c2 :: cs) > half then trimOldest half (c2 :: cs)
    else c :: c2 :: cs

/-- The push-then-trim performed by `appendOutput` on a live task's log:
push the chunk; if the total exceeds the cap, run the shift loop. -/
def appendedLog (cap : Nat) (log : List Chunk) (c : Chunk) : List Chunk :=
  let log1 := log ++ [c]
  if logSize log1 > cap then trimOldest (cap / 2) log1 else log1

/-- `appendOutput(taskId, type, data)`: drop silently when the task is absent
or terminal; push the chunk; if the total exceeds `maxOutputSize`, shift the
oldest chunks while more than one remains and the total exceeds half the cap. -/
def appendOutput (s : BackgroundTaskStore) (taskId : Nat) (type : String)
    (data : JSStr) (now : Nat) : BackgroundTaskStore :=
  match mapGet s.tasks taskId with
  | none => s
  | some task =>
    if task.status ≠ .running ∧ task.status ≠ .pending then s
    else
      let log2 := appendedLog s.maxOutputSize task.outputLog (Chunk.mk now type data)
      { s with tasks := mapUpdate s.tasks taskId (withOutputLog log2) }

/-- `getAndClearOutput(taskId)`: return the accumulated log (empty for an
absent id) and clear the task's buffer. -/
def getAndClearOutput (s : BackgroundTaskStore) (taskId : Nat) :
    BackgroundTaskStore × List Chunk :=
  match mapGet s.tasks taskId with
  | none => (s, [])
  | some task =>
    ({ s with tasks := mapUpdate s.tasks taskId (withOutputLog []) },
      task.outputLog)

/-- `deleteTask(taskId)`. -/
def deleteTask (s : BackgroundTaskStore) (taskId : Nat) : BackgroundTaskStore :=
  { s with tasks := mapDelete s.tasks taskId }

/-- `shutdown()`: every `running` or `pending` task gets `completedAt`, a
`{ error: 'Process shutting down' }` result, and status `failed`. -/
def shutdown (s : BackgroundTaskStore) (now : Nat) : BackgroundTaskStore :=
  { s with tasks := s.tasks.map (fun e =>
      if e.2.status = .running ∨ e.2.status = .pending then
        (e.1, { e.2 with completedAt := some now,
                         result := some (errorOnlyResult "Process shutting down"),
                         status := .failed })
      else e) }

/-- Stable insertion of an entry into a list sorted by `completedAt ?? 0`
ascending (the `sort((a, b) => a[1].completedAt - b[1].completedAt)`
comparator; `null` coerces to `0` in the subtraction). -/
def sortKey (e : Nat × Task) : Nat := e.2.completedAt.getD 0

/-- One step of a stable insertion sort on `sortKey`. -/
def insertByKey (x : Nat × Task) : List (Nat × Task) → List (Nat × Task)
  | [] => [x]
  | y :: ys => if sortKey x ≤ sortKey y then x :: y :: ys else y :: insertByKey x ys

/-- Stable sort by ascending `completedAt` (JavaScript `Array.prototype.sort`
is stable). -/
def sortByCompletedAt (l : List (Nat × Task)) : List (Nat × Task) :=
  l.foldr insertByKey []

/-- The `for (const [id] of expired) { delete; if (size <= maxTasks) break }`
loop of `cleanup`. -/
def evict (maxTasks : Nat) (ids : List Nat) (tasks : List (Nat × Task)) :
    List (Nat × Task) :=
  match ids with
  | [] => tasks
  | id :: rest =>
    let tasks' := mapDelete tasks id
    if tasks'.length ≤ maxTasks then tasks' else evict maxTasks rest tasks'

/-- `cleanup()`: delete terminal tasks older than `maxAge` (with a truthy
`completedAt`); then, while over `maxTasks`, delete terminal tasks in order of
oldest `completedAt`. -/
def cleanup (s : BackgroundTaskStore) (now : Nat) : BackgroundTaskStore :=
  let afterAge := s.tasks.filter (fun e =>
    !(e.2.status.isTerminal && completedAtTruthy e.2.completedAt &&
      decide (now - e.2.completedAt.getD 0 > s.maxAge)))
  let tasks' :=
    if afterAge.length > s.maxTasks then
      let expired := sortByCompletedAt (afterAge.filter (fun e => e.2.status.isTerminal))
      evict s.maxTasks (expired.map (·.1)) afterAge
    else afterAge
  { s with tasks := tasks' }

/-- The status/timestamp rewrite applied to each live task by `shutdown`. -/
def shutdownTask (now : Nat) (t : Task) : Task :=
  if t.status = .running ∨ t.status = .pending then
    { t with completedAt := some now,
             result := some (errorOnlyResult "Process shutting down"),
             status := .failed }
  else t

end BackgroundTaskStore

/-! ### Worker pool (`src/workers/worker-pool.js`) -/

/-- A job record as built at the top of `WorkerPool.execute` (the callback and
timer fields are not part of the value-level state). -/
structure Job where
  jobId : Nat
  startTime : Nat
  backgroundTaskId : Option Nat
  code : String
  runtime : String
  workingDirectory : String
  timeout : Nat
deriving DecidableEq, Repr

/-- One `{ worker, isAvailable }` slot; the underlying thread handle is
abstracted to its availability flag. -/
structure WorkerItem where
  isAvailable : Bool
deriving DecidableEq, Repr

/-- The `WorkerPool` instance state used by the synchronous part of
`execute`. -/
structure WorkerPool where
  poolSize : Nat
  workers : List WorkerItem
  queue : List Job
  jobCounter : Nat
  shuttingDown : Bool
deriving DecidableEq, Repr

/-- The synchronous outcome of `WorkerPool.execute`: an immediate rejection
with the given `Error` message, or acceptance of the job (pushed to the queue
when no worker is available, otherwise posted to an available worker). -/
inductive ExecuteOutcome where
  | rejected (reason : String)
  | enqueued (job : Job)
  | dispatched (job : Job)
deriving DecidableEq, Repr

namespace WorkerPool

/-- The synchronous prefix of `WorkerPool.execute`: increment `jobCounter`,
build the job, then fail fast on shutdown / empty worker list / queue
overflow, else hand the job to a free worker or the queue.  Returns the
outcome together with the updated pool state. -/
def execute (p : WorkerPool) (code runtime workingDirectory : String)
    (timeout : Nat) (backgroundTaskId : Option Nat) (now : Nat) :
    ExecuteOutcome × WorkerPool :=
  let jobId := p.jobCounter + 1
  let p1 := { p with jobCounter := jobId }
  let job : Job :=
    { jobId := jobId, startTime := now, backgroundTaskId := backgroundTaskId
      code := code, runtime := runtime, workingDirectory := workingDirectory
      timeout := timeout }
  if p1.shuttingDown then
    (.rejected "Pool is shutting down", p1)
  else if p1.workers.length = 0 then
    (.rejected "No workers available", p1)
  else if p1.queue.length > 100 then
    (.rejected "Queue overflow - too many pending jobs", p1)
  else if (p1.workers.find? (·.isAvailable)).isSome then
    (.dispatched job, p1)
  else
    (.enqueued job, { p1 with queue := p1.queue ++ [job] })

end WorkerPool

/-- The result object built in `handleWorkerMessage` from a worker completion
message `{ stdout, stderr, exitCode, error }`:
`success = error ? false : exitCode === 0`, `exitCode = exitCode ?? 1`,
`error = error ? new Error(error) : null` (kept as the message string). -/
structure PoolResult where
  success : Bool
  stdout : JSStr
  stderr : JSStr
  exitCode : Int
  executionTimeMs : Nat
  error : Option String
deriving DecidableEq, Repr

/-- `handleWorkerMessage`'s result construction (`src/workers/worker-pool.js`,
lines 107–113). -/
def poolResultOfMsg (stdout stderr : Option JSStr) (exitCode : Option Int)
    (error : Option String) (now startTime : Nat) : PoolResult :=
  { success := match error with
      | some _ => false
      | none => exitCode == some 0
    stdout := stdout.getD []
    stderr := stderr.getD []
    exitCode := exitCode.getD 1
    executionTimeMs := now - startTime
    error := error }

/-! ### Isolation worker (`isolation-worker.js`) -/

/-- One entry of the worker's `CONFIGS` table. -/
structure RuntimeConfig where
  command : String
  args : List String
  inline : Bool
deriving DecidableEq, Repr

/-- The `CONFIGS` lookup `CONFIGS[runtime]`. -/
def CONFIGS (runtime : String) : Option RuntimeConfig :=
  if runtime = "nodejs" then some ⟨"node", ["-e"], true⟩
  else if runtime = "typescript" then some ⟨"node", ["-e"], true⟩
  else if runtime = "deno" then some ⟨"deno", ["run", "--no-check"], false⟩
  else if runtime = "bash" then some ⟨"bash", ["-c"], true⟩
  else if runtime = "cmd" then some ⟨"cmd.exe", ["/c"], true⟩
  else if runtime = "go" then some ⟨"go", ["run"], false⟩
  else if runtime = "rust" then some ⟨"rustc", [], false⟩
  else if runtime = "python" then some ⟨"python3", ["-c"], true⟩
  else if runtime = "c" then some ⟨"gcc", [], false⟩
  else if runtime = "cpp" then some ⟨"g++", [], false⟩
  else if runtime = "java" then some ⟨"javac", [], false⟩
  else none

/-- `MAX_BUFFER = 10 * 1024 * 1024`. -/
def MAX_BUFFER : Nat := 10 * 1024 * 1024

/-- The result shape resolved by `executeInProcess`. -/
structure ExecResult where
  success : Bool
  exitCode : Int
  stdout : JSStr
  stderr : JSStr
  error : Option String
deriving DecidableEq, Repr

/-- The `Unsupported runtime` result resolved when `CONFIGS[runtime]` is
absent (`executeInProcess`, unsupported-runtime branch). -/
def unsupportedRuntimeResult (runtime : String) : ExecResult :=
  { success := false, exitCode := 1, stdout := []
    stderr := ("Unsupported runtime: " ++ runtime).data
    error := some ("Unsupported runtime: " ++ runtime) }

/-- The synchronous head of `executeInProcess`: `some r` when the promise is
resolved immediately with `r` before any child process is spawned (the
unsupported-runtime branch); `none` when a child is spawned and the outcome
depends on the process. -/
def executeInProcessSync (code runtime workingDirectory : String) : Option ExecResult :=
  match CONFIGS runtime with
  | none => some (unsupportedRuntimeResult runtime)
  | some _ => none

/-- One `data` event of a stream handler:
`acc += chunk; if (acc.length > MAX_BUFFER) acc = acc.slice(-Math.ceil(MAX_BUFFER * 0.5))`.
`slice(-n)` keeps the last `n` code units, i.e. drops `length - n` from the
front. -/
def streamStep (acc chunk : JSStr) : JSStr :=
  let a := acc ++ chunk
  if a.length > MAX_BUFFER then a.drop (a.length - (MAX_BUFFER + 1) / 2) else a

/-- The accumulator after a sequence of `data` events, starting from the
initial `''`; its final value is the `stdout` (resp. `stderr`) carried in the
result resolved by the `close` handler. -/
def captureStream (chunks : List JSStr) : JSStr :=
  chunks.foldl streamStep []

/-! ### Execution tool handler (`src/tools/executor-tool-isolated.js`) -/

/-- The `{content: [{type:'text', text}], isError}` response shape (with a
single text block). -/
structure ToolResponse where
  text : String
  isError : Bool
deriving DecidableEq, Repr

/-- The value resolved by `pool.execute` as consumed by the handler: either a
promotion handle (`persisted`), a completed background record, or a plain
result. -/
structure HandlerResult where
  persisted : Bool := false
  backgroundTaskId : Option Nat := none
  completed : Bool := false
  success : Bool := false
  stdout : JSStr := []
  stderr : JSStr := []
  error : Option String := none
deriving DecidableEq, Repr

/-- JavaScript `Error.prototype.toString()` for an error with the given
message, as interpolated by `` `Error: ${result.error}` ``. -/
def jsErrorString (msg : String) : String := "Error: " ++ msg

/-- The branch chain of `createExecutionHandler` after `executeCode` resolves
(`executor-tool-isolated.js`, lines 49–69), with the formatted texts for the
non-error branches abstracted by the given `fmt` function over the result. -/
def handlerResponse (taskHandle : Nat → String) (fmt : HandlerResult → String)
    (r : HandlerResult) : ToolResponse :=
  if r.persisted then
    { text := taskHandle (r.backgroundTaskId.getD 0), isError := false }
  else if r.backgroundTaskId.isSome ∧ r.completed then
    { text := taskHandle (r.backgroundTaskId.getD 0), isError := false }
  else if r.success = false ∧ r.error = none then
    { text := "Command failed\n" ++ fmt r, isError := true }
  else match r.error with
    | some e => { text := "Error: " ++ jsErrorString e, isError := true }
    | none => { text := fmt r, isError := false }

/-! ### Operation traces over the task store

Reachable store states are the results of running a sequence of store
operations from `BackgroundTaskStore.new`.  Each constructor carries the
`Date.now()` value observed by the call where the source reads the clock. -/

/-- One call into the `BackgroundTaskStore`. -/
inductive Op where
  | create (code runtime workingDirectory : String) (now : Nat)
  | start (taskId now : Nat)
  | complete (taskId : Nat) (result : StoreResult) (now : Nat)
  | fail (taskId : Nat) (errMsg : String) (now : Nat)
  | append (taskId : Nat) (type : String) (data : JSStr) (now : Nat)
  | getClear (taskId : Nat)
  | delete (taskId : Nat)
  | cleanup (now : Nat)
  | shutdown (now : Nat)
deriving DecidableEq, Repr

/-- The state transformer of one operation (return values discarded). -/
def applyOp (s : BackgroundTaskStore) : Op → BackgroundTaskStore
  | .create code runtime wd now => (s.createTask code runtime wd now).1
  | .start id now => s.startTask id now
  | .complete id r now => s.completeTask id r now
  | .fail id msg now => s.failTask id msg now
  | .append id ty d now => s.appendOutput id ty d now
  | .getClear id => (s.getAndClearOutput id).1
  | .delete id => s.deleteTask id
  | .cleanup now => s.cleanup now
  | .shutdown now => s.shutdown now

/-- Run a sequence of operations. -/
def runOps (s : BackgroundTaskStore) (ops : List Op) : BackgroundTaskStore :=
  ops.foldl applyOp s

/-- A single status transition of the `pending → running → (completed|failed)`
chain. -/
def dagStep : Status → Status → Prop
  | .pending, .running => True
  | .running, .completed => True
  | .running, .failed => True
  | _, _ => False

instance : DecidablePred (fun p : Status × Status => dagStep p.1 p.2) := by
  intro p
  rcases p with ⟨a, b⟩
  cases a <;> cases b <;> simp [dagStep] <;> infer_instance

/-- The status of the task stored under `taskId`, when present. -/
def statusOf (s : BackgroundTaskStore) (taskId : Nat) : Option Status :=
  (mapGet s.tasks taskId).map (·.status)

/-- The caller protocol under which the transition chain is guaranteed:
`StartTask` only on a non-terminal task, `CompleteTask`/`FailTask` only on a
task that is currently `running`, and `Shutdown` only when no task is still
`pending` (the store itself does not enforce any of this). -/
def opOK (s : BackgroundTaskStore) : Op → Bool
  | .start id _ =>
    match mapGet s.tasks id with
    | none => true
    | some t => !t.status.isTerminal
  | .complete id _ _ =>
    match mapGet s.tasks id with
    | none => true
    | some t => t.status == .running
  | .fail id _ _ =>
    match mapGet s.tasks id with
    | none => true
    | some t => t.status == .running
  | .shutdown _ => s.tasks.all (fun e => !(e.2.status == .pending))
  | _ => true

/-- A whole trace respects the caller protocol. -/
def traceOK (s : BackgroundTaskStore) : List Op → Bool
  | [] => true
  | o :: rest => opOK s o && traceOK (applyOp s o) rest

/-- Every status change performed by the next operation follows the DAG. -/
def stepDAG (s : BackgroundTaskStore) (o : Op) : Prop :=
  ∀ id t t', mapGet s.tasks id = some t → mapGet (applyOp s o).tasks id = some t' →
    t.status = t'.status ∨ dagStep t.status t'.status

/-- Along a trace, every status change of every task follows the DAG. -/
def traceDAG (s : BackgroundTaskStore) : List Op → Prop
  | [] => True
  | o :: rest => stepDAG s o ∧ traceDAG (applyOp s o) rest

/-- Every key in the map is bounded by the id counter (holds in every
reachable state; it is what makes `createTask`'s id fresh). -/
def keysBound (s : BackgroundTaskStore) : Prop :=
  ∀ k ∈ s.tasks.map Prod.fst, k ≤ s.taskCounter

/-- The representation invariant of the embedded `Map`: unique keys (a
JavaScript `Map` cannot hold two entries with the same key) together with
`keysBound`. -/
def storeWF (s : BackgroundTaskStore) : Prop :=
  keysBound s ∧ (s.tasks.map Prod.fst).Nodup

/-- Every task's buffered output either fits in the cap or is a single
(possibly oversized) chunk. -/
def logBounded (s : BackgroundTaskStore) : Prop :=
  ∀ e ∈ s.tasks,
    BackgroundTaskStore.logSize e.2.outputLog ≤ s.maxOutputSize ∨
    e.2.outputLog.length = 1

/-- The pool-resolved result as the execution handler reads it: the fields of
the plain result object; `persisted`, `backgroundTaskId` and `completed` are
absent (`undefined`, falsy) on this shape. -/
def handlerResultOfPool (r : PoolResult) : HandlerResult :=
  { success := r.success, stdout := r.stdout, stderr := r.stderr, error := r.error }

/-! ### Concrete witness data -/

/-- A single output chunk one byte over the 100 KiB task-output cap. -/
def bigChunkData : JSStr := List.replicate (100 * 1024 + 1) 'a'

/-- A store holding one freshly created (`pending`) task with id 1. -/
def oneTaskStore : BackgroundTaskStore :=
  (BackgroundTaskStore.new.createTask "console.log(1)" "nodejs" "/tmp" 1).1

/-- The record held by `oneTaskStore` under id 1. -/
def oneTask : Task :=
  { id := 1, code := "console.log(1)", runtime := "nodejs"
    workingDirectory := "/tmp", createdAt := 1 }

/-- `oneTaskStore` with one buffered output chunk on task 1. -/
def preloadedStore : BackgroundTaskStore :=
  oneTaskStore.appendOutput 1 "stdout" ['y'] 2

/-- A protocol-respecting operation sequence exercising both terminal
transitions, eviction, reads and shutdown. -/
def demoOps : List Op :=
  [Op.create "console.log(1)" "nodejs" "/tmp" 1,
   Op.start 1 2,
   Op.append 1 "stdout" ['x'] 3,
   Op.complete 1 {} 4,
   Op.create "echo hi" "bash" "/tmp" 5,
   Op.start 2 6,
   Op.fail 2 "err" 7,
   Op.cleanup 8,
   Op.getClear 1,
   Op.delete 1,
   Op.shutdown 9]

/-- The `i`-th entry of a store full of completed tasks: id `i + 1`,
`completed_at` `i + 1` (strictly increasing, oldest first). -/
def completedEntry (i : Nat) : Nat × Task :=
  (i + 1,
    { id := i + 1, code := "", runtime := "nodejs", workingDirectory := "/tmp"
      createdAt := 0, startedAt := some 1, completedAt := some (i + 1)
      result := some {}, status := Status.completed, outputLog := [] })

/-- A store at the constructor defaults holding `MAX_TASKS + 1 = 1001`
freshly completed tasks, oldest first. -/
def manyCompletedStore : BackgroundTaskStore :=
  { tasks := (List.range 1001).map completedEntry
    taskCounter := 1001
    maxAge := 30 * 60 * 1000
    maxTasks := 1000
    maxOutputSize := 100 * 1024 }

/-- A placeholder queued job. -/
def idleJob : Job :=
  { jobId := 0, startTime := 0, backgroundTaskId := none
    code := "", runtime := "nodejs", workingDirectory := "/tmp", timeout := 30000 }

/-- A pool with one busy worker and a queue holding exactly 100 jobs. -/
def fullQueuePool : WorkerPool :=
  { poolSize := 4, workers := [{ isAvailable := false }]
    queue := List.replicate 100 idleJob, jobCounter := 100, shuttingDown := false }

/-- A pool that is shutting down. -/
def shuttingDownPool : WorkerPool :=
  { poolSize := 4, workers := [{ isAvailable := true }]
    queue := [], jobCounter := 0, shuttingDown := true }

/-- A pool with an empty worker list. -/
def noWorkersPool : WorkerPool :=
  { poolSize := 4, workers := []
    queue := [], jobCounter := 0, shuttingDown := false }

/-- A pool with one free worker and a queue of 101 jobs (one over the
threshold actually enforced by the code). -/
def overflowedPool : WorkerPool :=
  { poolSize := 4, workers := [{ isAvailable := true }]
    queue := List.replicate 101 idleJob, jobCounter := 101, shuttingDown := false }

/-! ### Lemmas about the ordered-map primitives -/

theorem mapGet_nil {α : Type} (k : Nat) : mapGet ([] : List (Nat × α)) k = none := rfl

theorem mapGet_cons {α : Type} (e : Nat × α) (m : List (Nat × α)) (k : Nat) :
    mapGet (e :: m) k = if e.1 = k then some e.2 else mapGet m k := rfl

theorem mapGet_mapUpdate {α : Type} (m : List (Nat × α)) (k k' : Nat) (f : α → α) :
    mapGet (mapUpdate m k f) k' =
      if k' = k then (mapGet m k).map f else mapGet m k' := by
  induction m with
  | nil => simp [mapGet, mapUpdate]
  | cons e rest ih =>
    rcases e with ⟨a, b⟩
    by_cases hek : a = k <;> by_cases he' : a = k' <;> by_cases hkk : k' = k <;>
      simp_all [mapGet, mapUpdate]

theorem mapGet_mapSet {α : Type} (m : List (Nat × α)) (k k' : Nat) (v : α) :
    mapGet (mapSet m k v) k' = if k' = k then some v else mapGet m k' := by
  induction m with
  | nil =>
    by_cases hkk : k' = k <;> simp_all [mapGet, mapSet] <;> omega
  | cons e rest ih =>
    rcases e with ⟨a, b⟩
    by_cases hek : a = k <;> by_cases he' : a = k' <;> by_cases hkk : k' = k <;>
      simp_all [mapGet, mapSet]

theorem mapGet_mapDelete {α : Type} (m : List (Nat × α)) (k k' : Nat) :
    mapGet (mapDelete m k) k' = if k' = k then none else mapGet m k' := by
  induction m with
  | nil => by_cases hkk : k' = k <;> simp_all [mapGet, mapDelete]
  | cons e rest ih =>
    rcases e with ⟨a, b⟩
    by_cases hek : a = k <;> by_cases he' : a = k' <;> by_cases hkk : k' = k <;>
      simp_all [mapGet, mapDelete, List.filter_cons]

theorem mapGet_some_mem {α : Type} {m : List (Nat × α)} {k : Nat} {v : α}
    (h : mapGet m k = some v) : (k, v) ∈ m := by
  induction m with
  | nil => simp [mapGet] at h
  | cons e rest ih =>
    rcases e with ⟨a, b⟩
    rw [mapGet_cons] at h
    by_cases hek : a = k
    · rw [if_pos (by simpa using hek)] at h
      simp only [Option.some_inj] at h
      exact List.mem_cons.mpr (Or.inl (by simp [← h, hek]))
    · rw [if_neg (by simpa using hek)] at h
      exact List.mem_cons.mpr (Or.inr (ih h))

theorem mapGet_eq_of_mem {α : Type} {m : List (Nat × α)} {k : Nat} {v : α}
    (hnd : (m.map Prod.fst).Nodup) (h : (k, v) ∈ m) : mapGet m k = some v := by
  induction m with
  | nil => simp at h
  | cons e rest ih =>
    rw [mapGet_cons]
    rcases List.mem_cons.mp h with h1 | h1
    · simp [← h1]
    · have hne : e.1 ≠ k := by
        intro hk
        have hmem : k ∈ rest.map Prod.fst :=
          List.mem_map.mpr ⟨(k, v), h1, rfl⟩
        simp only [List.map_cons, List.nodup_cons] at hnd
        exact hnd.1 (hk ▸ hmem)
      rw [if_neg hne]
      simp only [List.map_cons, List.nodup_cons] at hnd
      exact ih hnd.2 h1

theorem mapGet_map_entry {α : Type} (h : Nat → α → α) (m : List (Nat × α)) (k : Nat) :
    mapGet (m.map (fun e => (e.1, h e.1 e.2))) k = (mapGet m k).map (h k) := by
  induction m with
  | nil => simp [mapGet]
  | cons e rest ih =>
    rcases e with ⟨a, b⟩
    by_cases hak : a = k <;> simp_all [mapGet]

theorem mapDelete_sublist {α : Type} (m : List (Nat × α)) (k : Nat) :
    (mapDelete m k).Sublist m := List.filter_sublist m

theorem evict_sublist (maxTasks : Nat) (ids : List Nat) (tasks : List (Nat × Task)) :
    (BackgroundTaskStore.evict maxTasks ids tasks).Sublist tasks := by
  induction ids generalizing tasks with
  | nil => simp [BackgroundTaskStore.evict]
  | cons id rest ih =>
    simp only [BackgroundTaskStore.evict]
    split
    · exact mapDelete_sublist tasks id
    · exact (ih (mapDelete tasks id)).trans (mapDelete_sublist tasks id)

theorem cleanup_tasks_sublist (s : BackgroundTaskStore) (now : Nat) :
    (s.cleanup now).tasks.Sublist s.tasks := by
  unfold BackgroundTaskStore.cleanup
  simp only
  split
  · exact (evict_sublist _ _ _).trans (List.filter_sublist s.tasks)
  · exact List.filter_sublist s.tasks

/-! ### Lemmas about the store operations -/

namespace BackgroundTaskStore

theorem shutdown_tasks_eq (s : BackgroundTaskStore) (now : Nat) :
    (s.shutdown now).tasks =
      s.tasks.map (fun e => (e.1, shutdownTask now e.2)) := by
  unfold shutdown
  dsimp only
  congr 1
  funext e
  unfold shutdownTask
  by_cases hc : e.2.status = Status.running ∨ e.2.status = Status.pending
  · rw [if_pos hc, if_pos hc]
  · rw [if_neg hc, if_neg hc]

theorem shutdown_lookup (s : BackgroundTaskStore) (now k : Nat) :
    mapGet (s.shutdown now).tasks k = (mapGet s.tasks k).map (shutdownTask now) := by
  rw [shutdown_tasks_eq]
  exact mapGet_map_entry (fun _ t => shutdownTask now t) s.tasks k

theorem startTask_lookup (s : BackgroundTaskStore) (id now k : Nat) :
    mapGet (s.startTask id now).tasks k =
      if k = id then (mapGet s.tasks id).map (startedTask now)
      else mapGet s.tasks k :=
  mapGet_mapUpdate s.tasks id k (startedTask now)

theorem completeTask_lookup (s : BackgroundTaskStore) (id : Nat) (r : StoreResult)
    (now k : Nat) :
    mapGet (s.completeTask id r now).tasks k =
      if k = id then (mapGet s.tasks id).map (completedTask r now)
      else mapGet s.tasks k :=
  mapGet_mapUpdate s.tasks id k (completedTask r now)

theorem failTask_lookup (s : BackgroundTaskStore) (id : Nat) (msg : String)
    (now k : Nat) :
    mapGet (s.failTask id msg now).tasks k =
      if k = id then (mapGet s.tasks id).map (failedTask msg now)
      else mapGet s.tasks k :=
  mapGet_mapUpdate s.tasks id k (failedTask msg now)

theorem deleteTask_lookup (s : BackgroundTaskStore) (id k : Nat) :
    mapGet (s.deleteTask id).tasks k =
      if k = id then none else mapGet s.tasks k :=
  mapGet_mapDelete s.tasks id k

theorem createTask_lookup (s : BackgroundTaskStore) (code runtime wd : String)
    (now k : Nat) :
    mapGet (s.createTask code runtime wd now).1.tasks k =
      if k = s.taskCounter + 1 then
        some { id := s.taskCounter + 1, code := code, runtime := runtime
               workingDirectory := wd, createdAt := now, startedAt := none
               completedAt := none, result := none, status := Status.pending
               outputLog := [] }
      else mapGet s.tasks k :=
  mapGet_mapSet s.tasks _ k _

theorem getAndClearOutput_fst_lookup (s : BackgroundTaskStore) (id k : Nat) :
    mapGet (s.getAndClearOutput id).1.tasks k =
      match mapGet s.tasks id with
      | none => mapGet s.tasks k
      | some _ =>
        if k = id then (mapGet s.tasks id).map (withOutputLog [])
        else mapGet s.tasks k := by
  unfold getAndClearOutput
  rcases h : mapGet s.tasks id with _ | t
  · simp [h]
  · simp only [h]
    rw [mapGet_mapUpdate, h]

/-- `trimOldest` only drops chunks from the front. -/
theorem trimOldest_suffix (half : Nat) (l : List Chunk) :
    (trimOldest half l).IsSuffix l := by
  induction l with
  | nil => simp [trimOldest]
  | cons c cs ih =>
    cases cs with
    | nil => simp [trimOldest]
    | cons c2 cs2 =>
      simp only [trimOldest]
      split
      · exact ih.trans (List.suffix_cons c (c2 :: cs2))
      · exact List.suffix_refl _

/-- `trimOldest` stops at half the cap or at a single remaining chunk. -/
theorem trimOldest_bound (half : Nat) (l : List Chunk) :
    logSize (trimOldest half l) ≤ half ∨ (trimOldest half l).length = 1 := by
  induction l with
  | nil => left; simp [trimOldest, logSize]
  | cons c cs ih =>
    cases cs with
    | nil => right; simp [trimOldest]
    | cons c2 cs2 =>
      simp only [trimOldest]
      split
      · exact ih
      · left; omega

/-- `trimOldest` never discards the final chunk. -/
theorem trimOldest_getLast? (half : Nat) (l : List Chunk) (h : l ≠ []) :
    (trimOldest half l).getLast? = l.getLast? := by
  induction l with
  | nil => simp at h
  | cons c cs ih =>
    cases cs with
    | nil => simp [trimOldest]
    | cons c2 cs2 =>
      simp only [trimOldest]
      split
      · rw [ih (by simp), List.getLast?_cons_cons]
      · rfl

theorem appendOutput_lookup (s : BackgroundTaskStore) (id : Nat) (ty : String)
    (d : JSStr) (now : Nat) (t : Task) (ht : mapGet s.tasks id = some t)
    (hact : t.status = .pending ∨ t.status = .running) (k : Nat) :
    mapGet (s.appendOutput id ty d now).tasks k =
      if k = id then
        some (withOutputLog (appendedLog s.maxOutputSize t.outputLog (Chunk.mk now ty d)) t)
      else mapGet s.tasks k := by
  unfold appendOutput
  rw [ht]
  dsimp only
  rw [if_neg (by rcases hact with h | h <;> simp [h])]
  rw [mapGet_mapUpdate, ht]
  rfl

/-- `appendOutput` on an absent or terminal task leaves the store unchanged. -/
theorem appendOutput_noop (s : BackgroundTaskStore) (id : Nat) (ty : String)
    (d : JSStr) (now : Nat)
    (h : ∀ t, mapGet s.tasks id = some t → t.status.isTerminal) :
    s.appendOutput id ty d now = s := by
  unfold appendOutput
  rcases ht : mapGet s.tasks id with _ | t
  · rfl
  · have hterm := h t ht
    have hs : t.status = .completed ∨ t.status = .failed := by
      rcases h2 : t.status with _ | _ | _ | _ <;> simp_all [Status.isTerminal]
    dsimp only
    rw [if_pos]
    rcases hs with h1 | h1 <;> exact ⟨by simp [h1], by simp [h1]⟩

theorem mapUpdate_absent {α : Type} {m : List (Nat × α)} {k : Nat} (f : α → α)
    (h : mapGet m k = none) : mapUpdate m k f = m := by
  induction m with
  | nil => rfl
  | cons e rest ih =>
    rw [mapGet_cons] at h
    by_cases hek : e.1 = k
    · rw [if_pos hek] at h; exact absurd h (by simp)
    · rw [if_neg hek] at h
      simp only [mapUpdate, List.map_cons]
      rw [if_neg (by simpa using hek)]
      have := ih h
      simp only [mapUpdate] at this
      rw [this]

theorem mapDelete_absent {α : Type} {m : List (Nat × α)} {k : Nat}
    (h : mapGet m k = none) : mapDelete m k = m := by
  induction m with
  | nil => rfl
  | cons e rest ih =>
    rw [mapGet_cons] at h
    by_cases hek : e.1 = k
    · rw [if_pos hek] at h; exact absurd h (by simp)
    · rw [if_neg hek] at h
      simp only [mapDelete, List.filter_cons]
      rw [if_pos (by simpa using hek)]
      have := ih h
      simp only [mapDelete] at this
      rw [this]

theorem appendOutput_maxOutputSize (s : BackgroundTaskStore) (id : Nat)
    (ty : String) (d : JSStr) (now : Nat) :
    (s.appendOutput id ty d now).maxOutputSize = s.maxOutputSize := by
  unfold appendOutput
  rcases mapGet s.tasks id with _ | t
  · rfl
  · dsimp only
    split <;> rfl

/-- `appendedLog` without overflow is a plain push. -/
theorem appendedLog_small (cap : Nat) (log : List Chunk) (c : Chunk)
    (h : logSize (log ++ [c]) ≤ cap) :
    appendedLog cap log c = log ++ [c] := by
  unfold appendedLog
  dsimp only
  rw [if_neg (by omega)]

/-- The chunk just pushed is always the last entry of the appended log. -/
theorem appendedLog_getLast? (cap : Nat) (log : List Chunk) (c : Chunk) :
    (appendedLog cap log c).getLast? = some c := by
  unfold appendedLog
  dsimp only
  split
  · rw [trimOldest_getLast? _ _ (by simp)]
    simp
  · simp

theorem appendedLog_ne_nil (cap : Nat) (log : List Chunk) (c : Chunk) :
    appendedLog cap log c ≠ [] := by
  intro h
  have := appendedLog_getLast? cap log c
  rw [h] at this
  simp at this

theorem withOutputLog_status (log : List Chunk) (t : Task) :
    (withOutputLog log t).status = t.status := rfl

theorem getAndClearOutput_snd (s : BackgroundTaskStore) (id : Nat) :
    (s.getAndClearOutput id).2 =
      match mapGet s.tasks id with
      | none => []
      | some t => t.outputLog := by
  unfold getAndClearOutput
  rcases h : mapGet s.tasks id with _ | t <;> rfl

/-- A single chunk whose own length exceeds the cap is pushed and then left
alone by the shift loop (`outputLog.length > 1` fails immediately). -/
theorem appendedLog_single_oversize (cap : Nat) (c : Chunk)
    (h : c.d.length > cap) : appendedLog cap [] c = [c] := by
  unfold appendedLog
  dsimp only
  rw [if_pos (by simpa [logSize] using h)]
  rfl

theorem logSize_singleton (c : Chunk) : logSize [c] = c.d.length := by
  simp [logSize]

end BackgroundTaskStore

/-! ### Claim theorems -/

open BackgroundTaskStore

/-- C9: every Task Store operation invoked with an id not present in the
store is a silent no-op: `startTask`, `completeTask`, `failTask`,
`appendOutput` and `deleteTask` return with the store (all tasks and the id
counter) unchanged, and `getAndClearOutput` returns the empty list and
changes nothing. -/
theorem missing_id_ops_are_noops (s : BackgroundTaskStore) (id now : Nat)
    (r : StoreResult) (msg ty : String) (d : JSStr)
    (h : mapGet s.tasks id = none) :
    s.startTask id now = s ∧ s.completeTask id r now = s ∧
    s.failTask id msg now = s ∧ s.appendOutput id ty d now = s ∧
    s.deleteTask id = s ∧ s.getAndClearOutput id = (s, []) := by
  refine ⟨?_, ?_, ?_, ?_, ?_, ?_⟩
  · unfold startTask; rw [mapUpdate_absent _ h]
  · unfold completeTask; rw [mapUpdate_absent _ h]
  · unfold failTask; rw [mapUpdate_absent _ h]
  · unfold appendOutput; rw [h]
  · unfold deleteTask; rw [mapDelete_absent h]
  · unfold getAndClearOutput; rw [h]

/-- Witness for C9 at the fresh store and id 1. -/
theorem missing_id_ops_are_noops_witness :
    BackgroundTaskStore.new.startTask 1 7 = BackgroundTaskStore.new ∧
    BackgroundTaskStore.new.completeTask 1 {} 7 = BackgroundTaskStore.new ∧
    BackgroundTaskStore.new.failTask 1 "e" 7 = BackgroundTaskStore.new ∧
    BackgroundTaskStore.new.appendOutput 1 "stdout" ['x'] 7 = BackgroundTaskStore.new ∧
    BackgroundTaskStore.new.deleteTask 1 = BackgroundTaskStore.new ∧
    BackgroundTaskStore.new.getAndClearOutput 1 = (BackgroundTaskStore.new, []) :=
  missing_id_ops_are_noops BackgroundTaskStore.new 1 7 {} "e" "stdout" ['x'] rfl

/-- C2 counterexample: `failTask(1, Error('boom'))` on an existing task stores
the result object `{ error: 'boom' }` — its `success` and `exit_code`
properties are absent (`none`), not `false` and `1` as the claim states. -/
theorem failTask_result_lacks_success_and_exitCode :
    ((mapGet (oneTaskStore.failTask 1 "boom" 2).tasks 1).bind Task.result) =
      some (errorOnlyResult "boom") ∧
    ((mapGet (oneTaskStore.failTask 1 "boom" 2).tasks 1).bind Task.result).map
        StoreResult.success = some none ∧
    ((mapGet (oneTaskStore.failTask 1 "boom" 2).tasks 1).bind Task.result).map
        StoreResult.exitCode = some none ∧
    ((mapGet (oneTaskStore.failTask 1 "boom" 2).tasks 1).bind Task.result).map
        StoreResult.success ≠ some (some false) := by
  decide

/-- C2 (amended): for every id present in the store, `failTask(id, reason)`
sets status `failed`, sets `completed_at`, and stores the result object
`{ error: reason }` — `error` equals the reason, while the `success` and
`exit_code` fields are not written (they are absent from the stored
result). -/
theorem failTask_sets_failed_with_error_only (s : BackgroundTaskStore) (id : Nat)
    (reason : String) (now : Nat) (t : Task)
    (ht : mapGet s.tasks id = some t) :
    mapGet (s.failTask id reason now).tasks id =
      some { t with completedAt := some now, status := Status.failed,
                    result := some { success := none, exitCode := none,
                                     stdout := none, stderr := none,
                                     executionTimeMs := none,
                                     error := some reason } } := by
  rw [failTask_lookup, if_pos rfl, ht]
  rfl

/-- Witness for the amended C2 at the one-task store. -/
theorem failTask_sets_failed_with_error_only_witness :
    mapGet oneTaskStore.tasks 1 = some oneTask ∧
    mapGet (oneTaskStore.failTask 1 "boom" 2).tasks 1 =
      some { oneTask with completedAt := some 2, status := Status.failed,
                          result := some { success := none, exitCode := none,
                                           stdout := none, stderr := none,
                                           executionTimeMs := none,
                                           error := some "boom" } } :=
  ⟨by decide, failTask_sets_failed_with_error_only oneTaskStore 1 "boom" 2 oneTask (by decide)⟩

/-- C10: on any existing `pending` or `running` task, `appendOutput` leaves a
non-empty log whose last entry is exactly the appended chunk (trimming only
discards from the front); and — second conjunct — a single appended chunk one
byte over `MAX_TASK_OUTPUT` is retained whole, leaving the total above the
cap. -/
theorem appendOutput_keeps_appended_chunk :
    (∀ (s : BackgroundTaskStore) (id : Nat) (ty : String) (d : JSStr) (now : Nat)
      (t : Task), mapGet s.tasks id = some t →
      t.status = Status.pending ∨ t.status = Status.running →
      ∃ log, mapGet (s.appendOutput id ty d now).tasks id = some (withOutputLog log t) ∧
        log ≠ [] ∧ log.getLast? = some (Chunk.mk now ty d)) ∧
    logSize (appendedLog BackgroundTaskStore.new.maxOutputSize []
        (Chunk.mk 0 "stdout" bigChunkData)) > BackgroundTaskStore.new.maxOutputSize := by
  constructor
  · intro s id ty d now t ht hact
    refine ⟨appendedLog s.maxOutputSize t.outputLog (Chunk.mk now ty d), ?_, ?_, ?_⟩
    · rw [appendOutput_lookup s id ty d now t ht hact, if_pos rfl]
    · exact appendedLog_ne_nil _ _ _
    · exact appendedLog_getLast? _ _ _
  · have hlen : bigChunkData.length = 100 * 1024 + 1 := by
      show (List.replicate (100 * 1024 + 1) 'a').length = 100 * 1024 + 1
      rw [List.length_replicate]
    have hc : (Chunk.mk 0 "stdout" bigChunkData).d.length >
        BackgroundTaskStore.new.maxOutputSize := by
      show bigChunkData.length > BackgroundTaskStore.new.maxOutputSize
      rw [hlen]
      decide
    rw [appendedLog_single_oversize _ _ hc, logSize_singleton]
    exact hc

/-- Witness for C10 at the one-task store. -/
theorem appendOutput_keeps_appended_chunk_witness :
    (oneTask.status = Status.pending ∨ oneTask.status = Status.running) ∧
    ∃ log, mapGet (oneTaskStore.appendOutput 1 "stdout" ['x'] 3).tasks 1 =
        some (withOutputLog log oneTask) ∧
      log ≠ [] ∧ log.getLast? = some (Chunk.mk 3 "stdout" ['x']) :=
  ⟨Or.inl (by decide),
    appendOutput_keeps_appended_chunk.1 oneTaskStore 1 "stdout" ['x'] 3 oneTask
      (by decide) (Or.inl (by decide))⟩

/-- C8 counterexample: on an existing non-terminal task whose buffer already
holds a chunk `y`, `AppendOutput(x1); AppendOutput(x2); ReadAndClearOutput`
returns `[y, x1, x2]`, not `[x1, x2]`, even though the combined size of `x1`
and `x2` is far below the cap. -/
theorem readClear_returns_preexisting_chunk_too :
    ((((preloadedStore.appendOutput 1 "stdout" ['a'] 3).appendOutput 1 "stdout" ['b'] 4
        ).getAndClearOutput 1).2 =
      [Chunk.mk 2 "stdout" ['y'], Chunk.mk 3 "stdout" ['a'], Chunk.mk 4 "stdout" ['b']]) ∧
    ((((preloadedStore.appendOutput 1 "stdout" ['a'] 3).appendOutput 1 "stdout" ['b'] 4
        ).getAndClearOutput 1).2 ≠
      [Chunk.mk 3 "stdout" ['a'], Chunk.mk 4 "stdout" ['b']]) ∧
    (mapGet preloadedStore.tasks 1).map Task.status = some Status.pending := by
  decide

/-- C8 (amended): for every existing non-terminal task whose `output_log` is
empty, and chunks `x1`, `x2` whose combined size stays within the output cap,
`AppendOutput(x1); AppendOutput(x2); ReadAndClearOutput` returns exactly
`[x1, x2]` in order, and an immediately following `ReadAndClearOutput`
returns the empty list. -/
theorem append_append_readClear_roundtrip (s : BackgroundTaskStore) (id : Nat)
    (t : Task) (ty1 ty2 : String) (x1 x2 : JSStr) (n1 n2 : Nat)
    (ht : mapGet s.tasks id = some t)
    (hact : t.status = Status.pending ∨ t.status = Status.running)
    (hlog : t.outputLog = [])
    (hsize : x1.length + x2.length ≤ s.maxOutputSize) :
    (((s.appendOutput id ty1 x1 n1).appendOutput id ty2 x2 n2).getAndClearOutput id).2 =
      [Chunk.mk n1 ty1 x1, Chunk.mk n2 ty2 x2] ∧
    (((((s.appendOutput id ty1 x1 n1).appendOutput id ty2 x2 n2).getAndClearOutput id).1
        ).getAndClearOutput id).2 = [] := by
  have hL1 : appendedLog s.maxOutputSize t.outputLog (Chunk.mk n1 ty1 x1) =
      [Chunk.mk n1 ty1 x1] := by
    rw [hlog]
    rw [appendedLog_small _ _ _ (by simp [logSize]; omega)]
    rfl
  have h1 : mapGet (s.appendOutput id ty1 x1 n1).tasks id =
      some (withOutputLog [Chunk.mk n1 ty1 x1] t) := by
    rw [appendOutput_lookup s id ty1 x1 n1 t ht hact, if_pos rfl, hL1]
  have hcap1 : (s.appendOutput id ty1 x1 n1).maxOutputSize = s.maxOutputSize :=
    appendOutput_maxOutputSize s id ty1 x1 n1
  have hact1 : (withOutputLog [Chunk.mk n1 ty1 x1] t).status = Status.pending ∨
      (withOutputLog [Chunk.mk n1 ty1 x1] t).status = Status.running := by
    rw [withOutputLog_status]; exact hact
  have hL2 : appendedLog (s.appendOutput id ty1 x1 n1).maxOutputSize
      (withOutputLog [Chunk.mk n1 ty1 x1] t).outputLog (Chunk.mk n2 ty2 x2) =
      [Chunk.mk n1 ty1 x1, Chunk.mk n2 ty2 x2] := by
    rw [hcap1]
    show appendedLog s.maxOutputSize [Chunk.mk n1 ty1 x1] (Chunk.mk n2 ty2 x2) = _
    rw [appendedLog_small _ _ _ (by simp [logSize]; omega)]
    rfl
  have h2 : mapGet ((s.appendOutput id ty1 x1 n1).appendOutput id ty2 x2 n2).tasks id =
      some (withOutputLog [Chunk.mk n1 ty1 x1, Chunk.mk n2 ty2 x2]
        (withOutputLog [Chunk.mk n1 ty1 x1] t)) := by
    rw [appendOutput_lookup _ id ty2 x2 n2 _ h1 hact1, if_pos rfl, hL2]
  constructor
  · rw [getAndClearOutput_snd, h2]
    rfl
  · have h3 : mapGet ((((s.appendOutput id ty1 x1 n1).appendOutput id ty2 x2 n2
        ).getAndClearOutput id).1).tasks id =
        some (withOutputLog [] (withOutputLog [Chunk.mk n1 ty1 x1, Chunk.mk n2 ty2 x2]
          (withOutputLog [Chunk.mk n1 ty1 x1] t))) := by
      rw [getAndClearOutput_fst_lookup]
      rw [h2]
      simp
    rw [getAndClearOutput_snd, h3]
    rfl

/-- Witness for the amended C8 at the one-task store. -/
theorem append_append_readClear_roundtrip_witness :
    (((oneTaskStore.appendOutput 1 "stdout" ['a'] 3).appendOutput 1 "stderr" ['b'] 4
        ).getAndClearOutput 1).2 =
      [Chunk.mk 3 "stdout" ['a'], Chunk.mk 4 "stderr" ['b']] ∧
    (((((oneTaskStore.appendOutput 1 "stdout" ['a'] 3).appendOutput 1 "stderr" ['b'] 4
        ).getAndClearOutput 1).1).getAndClearOutput 1).2 = [] :=
  append_append_readClear_roundtrip oneTaskStore 1 oneTask "stdout" "stderr"
    ['a'] ['b'] 3 4 (by decide) (Or.inl (by decide)) (by decide) (by decide)

/-- C5 counterexample: with a queue holding exactly 100 jobs (the claimed
"100-job cap") and a busy worker, `execute` does not reject — the check is
`queue.length > 100`, so the job is appended and the queue grows to 101.
The rejection that does exist (at 101 queued jobs) carries the reason string
`"Queue overflow - too many pending jobs"`, not `"Queue overflow"`. -/
theorem execute_accepts_at_hundred_queued :
    fullQueuePool.queue.length = 100 ∧
    fullQueuePool.shuttingDown = false ∧
    fullQueuePool.workers.length ≠ 0 ∧
    (fullQueuePool.execute "x" "nodejs" "/tmp" 30000 none 5).1 =
      ExecuteOutcome.enqueued
        { jobId := 101, startTime := 5, backgroundTaskId := none
          code := "x", runtime := "nodejs", workingDirectory := "/tmp"
          timeout := 30000 } ∧
    (fullQueuePool.execute "x" "nodejs" "/tmp" 30000 none 5).2.queue.length = 101 ∧
    (overflowedPool.execute "x" "nodejs" "/tmp" 30000 none 5).1 =
      ExecuteOutcome.rejected "Queue overflow - too many pending jobs" := by
  decide

/-- C5 (amended): `WorkerPool.execute` fails fast without enqueuing or
dispatching, with the checks in order: when shutting down it rejects with
`"Pool is shutting down"`; else with an empty worker list it rejects with
`"No workers available"`; else when the queue holds more than `100` jobs (at
`101`, not at the 100-job mark) it rejects with
`"Queue overflow - too many pending jobs"`.  On every rejection the only
state change is the already-incremented job counter: queue, workers and
shutdown flag are untouched. -/
theorem execute_fail_fast_order (p : WorkerPool) (code runtime wd : String)
    (timeout : Nat) (btid : Option Nat) (now : Nat) :
    (p.shuttingDown = true →
      p.execute code runtime wd timeout btid now =
        (.rejected "Pool is shutting down", { p with jobCounter := p.jobCounter + 1 })) ∧
    (p.shuttingDown = false → p.workers.length = 0 →
      p.execute code runtime wd timeout btid now =
        (.rejected "No workers available", { p with jobCounter := p.jobCounter + 1 })) ∧
    (p.shuttingDown = false → p.workers.length ≠ 0 → p.queue.length > 100 →
      p.execute code runtime wd timeout btid now =
        (.rejected "Queue overflow - too many pending jobs",
          { p with jobCounter := p.jobCounter + 1 })) := by
  refine ⟨?_, ?_, ?_⟩
  · intro h1
    simp [WorkerPool.execute, h1]
  · intro h1 h2
    simp [WorkerPool.execute, h1, h2]
  · intro h1 h2 h3
    simp [WorkerPool.execute, h1, h2, h3]

/-- Witness for the amended C5 at the three rejecting pools. -/
theorem execute_fail_fast_order_witness :
    shuttingDownPool.execute "x" "nodejs" "/tmp" 30000 none 5 =
      (.rejected "Pool is shutting down", { shuttingDownPool with jobCounter := 1 }) ∧
    noWorkersPool.execute "x" "nodejs" "/tmp" 30000 none 5 =
      (.rejected "No workers available", { noWorkersPool with jobCounter := 1 }) ∧
    overflowedPool.execute "x" "nodejs" "/tmp" 30000 none 5 =
      (.rejected "Queue overflow - too many pending jobs",
        { overflowedPool with jobCounter := 102 }) :=
  ⟨(execute_fail_fast_order shuttingDownPool "x" "nodejs" "/tmp" 30000 none 5).1 rfl,
   (execute_fail_fast_order noWorkersPool "x" "nodejs" "/tmp" 30000 none 5).2.1 rfl rfl,
   (execute_fail_fast_order overflowedPool "x" "nodejs" "/tmp" 30000 none 5).2.2 rfl
     (by decide) (by decide)⟩

/-- C7: for every language tag with no `CONFIGS` entry, `executeInProcess`
resolves (does not throw) immediately with `success = false`, `exitCode = 1`
and error `"Unsupported runtime: <tag>"`; and the execute tool handler turns
the pool result carrying that error into a response with `isError = true`,
not an exception. -/
theorem unsupported_runtime_resolves_failure (code runtime wd : String)
    (h : CONFIGS runtime = none) (now startTime : Nat)
    (taskHandle : Nat → String) (fmt : HandlerResult → String) :
    executeInProcessSync code runtime wd = some (unsupportedRuntimeResult runtime) ∧
    (unsupportedRuntimeResult runtime).success = false ∧
    (unsupportedRuntimeResult runtime).exitCode = 1 ∧
    (unsupportedRuntimeResult runtime).error =
      some ("Unsupported runtime: " ++ runtime) ∧
    (handlerResponse taskHandle fmt
        (handlerResultOfPool
          (poolResultOfMsg (some (unsupportedRuntimeResult runtime).stdout)
            (some (unsupportedRuntimeResult runtime).stderr)
            (some (unsupportedRuntimeResult runtime).exitCode)
            ((unsupportedRuntimeResult runtime).error) now startTime))).isError = true := by
  refine ⟨?_, rfl, rfl, rfl, ?_⟩
  · unfold executeInProcessSync
    rw [h]
  · simp [handlerResponse, handlerResultOfPool, poolResultOfMsg, unsupportedRuntimeResult]

/-- Witness for C7 at the unknown tag `"ruby"`. -/
theorem unsupported_runtime_resolves_failure_witness :
    CONFIGS "ruby" = none ∧
    executeInProcessSync "print(1)" "ruby" "/tmp" =
      some (unsupportedRuntimeResult "ruby") ∧
    (handlerResponse (fun _ => "h") (fun _ => "f")
        (handlerResultOfPool
          (poolResultOfMsg (some (unsupportedRuntimeResult "ruby").stdout)
            (some (unsupportedRuntimeResult "ruby").stderr)
            (some (unsupportedRuntimeResult "ruby").exitCode)
            ((unsupportedRuntimeResult "ruby").error) 9 4))).isError = true :=
  ⟨by decide,
   (unsupported_runtime_resolves_failure "print(1)" "ruby" "/tmp" (by decide) 9 4
      (fun _ => "h") (fun _ => "f")).1,
   (unsupported_runtime_resolves_failure "print(1)" "ruby" "/tmp" (by decide) 9 4
      (fun _ => "h") (fun _ => "f")).2.2.2.2⟩

theorem isSuffix_append_right {α : Type} {l₁ l₂ : List α} (t : List α)
    (h : l₁.IsSuffix l₂) : (l₁ ++ t).IsSuffix (l₂ ++ t) := by
  rcases h with ⟨p, rfl⟩
  exact ⟨p, (List.append_assoc p l₁ t).symm⟩

theorem streamStep_length_le (acc c : JSStr) :
    (streamStep acc c).length ≤ MAX_BUFFER := by
  have hMB : MAX_BUFFER = 10485760 := rfl
  unfold streamStep
  dsimp only
  split
  · rw [List.length_drop]
    omega
  · omega

theorem streamStep_suffix (acc c : JSStr) :
    (streamStep acc c).IsSuffix (acc ++ c) := by
  unfold streamStep
  dsimp only
  split
  · exact List.drop_suffix _ _
  · exact List.suffix_refl _

theorem foldl_streamStep_length (chunks : List JSStr) :
    ∀ acc : JSStr, acc.length ≤ MAX_BUFFER →
      (chunks.foldl streamStep acc).length ≤ MAX_BUFFER := by
  induction chunks with
  | nil => intro acc h; exact h
  | cons c cs ih =>
    intro acc _
    exact ih (streamStep acc c) (streamStep_length_le acc c)

theorem foldl_streamStep_suffix (chunks : List JSStr) :
    ∀ acc target : JSStr, acc.IsSuffix target →
      (chunks.foldl streamStep acc).IsSuffix (target ++ chunks.flatten) := by
  induction chunks with
  | nil =>
    intro acc target h
    simpa using h
  | cons c cs ih =>
    intro acc target h
    have h1 : (streamStep acc c).IsSuffix (target ++ c) :=
      (streamStep_suffix acc c).trans (isSuffix_append_right c h)
    have h2 := ih (streamStep acc c) (target ++ c) h1
    simpa [List.append_assoc] using h2

/-- C4: the stream accumulators of the isolation worker stay within
`MAX_BUFFER` (10 MiB) after every `data` event — so the `stdout`/`stderr`
carried in the resolved result never exceed it — and the accumulator is
always a suffix (the tail, most recent bytes) of everything received; when an
event pushes the accumulator over the limit, it is trimmed via
`slice(-Math.ceil(MAX_BUFFER * 0.5))` to exactly the last 50 % of
`MAX_BUFFER`.  A 10 MiB + 1 byte stream is an instance: its capture is
≤ 10 MiB and a suffix of the stream. -/
theorem stream_capture_bounded_keeps_tail :
    (∀ chunks : List JSStr,
      (captureStream chunks).length ≤ MAX_BUFFER ∧
      (captureStream chunks).IsSuffix chunks.flatten) ∧
    (∀ acc c : JSStr, (acc ++ c).length > MAX_BUFFER →
      streamStep acc c = (acc ++ c).drop ((acc ++ c).length - (MAX_BUFFER + 1) / 2) ∧
      (streamStep acc c).length = (MAX_BUFFER + 1) / 2) := by
  constructor
  · intro chunks
    constructor
    · exact foldl_streamStep_length chunks [] (Nat.zero_le _)
    · simpa using foldl_streamStep_suffix chunks [] [] (List.suffix_refl _)
  · intro acc c h
    have hMB : MAX_BUFFER = 10485760 := rfl
    constructor
    · unfold streamStep
      dsimp only
      rw [if_pos h]
    · unfold streamStep
      dsimp only
      rw [if_pos h, List.length_drop]
      omega

/-- Witness for C4 at a 10 MiB + 1 byte stream. -/
theorem stream_capture_bounded_keeps_tail_witness :
    (List.replicate MAX_BUFFER 'a' ++ ['b']).length > MAX_BUFFER ∧
    (streamStep (List.replicate MAX_BUFFER 'a') ['b']).length = (MAX_BUFFER + 1) / 2 ∧
    (captureStream [List.replicate MAX_BUFFER 'a', ['b']]).length ≤ MAX_BUFFER := by
  have h : (List.replicate MAX_BUFFER 'a' ++ ['b']).length > MAX_BUFFER := by
    rw [List.length_append, List.length_replicate, List.length_singleton]
    omega
  exact ⟨h,
    (stream_capture_bounded_keeps_tail.2 (List.replicate MAX_BUFFER 'a') ['b'] h).2,
    (stream_capture_bounded_keeps_tail.1 [List.replicate MAX_BUFFER 'a', ['b']]).1⟩

/-! ### Invariants along operation traces -/

theorem mapSet_eq_append {α : Type} {m : List (Nat × α)} {k : Nat} (v : α)
    (h : mapGet m k = none) : mapSet m k v = m ++ [(k, v)] := by
  induction m with
  | nil => rfl
  | cons e rest ih =>
    rw [mapGet_cons] at h
    by_cases hek : e.1 = k
    · rw [if_pos hek] at h; exact absurd h (by simp)
    · rw [if_neg hek] at h
      simp only [mapSet]
      rw [if_neg (by simpa using hek), ih h]
      rfl

theorem mapUpdate_fst {α : Type} (m : List (Nat × α)) (k : Nat) (f : α → α) :
    (mapUpdate m k f).map Prod.fst = m.map Prod.fst := by
  induction m with
  | nil => rfl
  | cons e rest ih =>
    simp only [mapUpdate, List.map_cons] at ih ⊢
    by_cases hek : e.1 = k
    · rw [if_pos (by simpa using hek)]
      simp [ih]
      intro a b _
      split <;> rfl
    · rw [if_neg (by simpa using hek)]
      simp [ih]
      intro a b _
      split <;> rfl

theorem mem_mapSet {α : Type} {m : List (Nat × α)} {k : Nat} {v : α}
    {e' : Nat × α} (h : e' ∈ mapSet m k v) : e' = (k, v) ∨ e' ∈ m := by
  induction m with
  | nil => simpa [mapSet] using h
  | cons e rest ih =>
    simp only [mapSet] at h
    by_cases hek : e.1 = k
    · rw [if_pos (by simpa using hek)] at h
      rcases List.mem_cons.mp h with h1 | h1
      · exact Or.inl h1
      · exact Or.inr (List.mem_cons.mpr (Or.inr h1))
    · rw [if_neg (by simpa using hek)] at h
      rcases List.mem_cons.mp h with h1 | h1
      · exact Or.inr (List.mem_cons.mpr (Or.inl h1))
      · rcases ih h1 with h2 | h2
        · exact Or.inl h2
        · exact Or.inr (List.mem_cons.mpr (Or.inr h2))

theorem mem_mapUpdate {α : Type} {m : List (Nat × α)} {k : Nat} {f : α → α}
    {e' : Nat × α} (h : e' ∈ mapUpdate m k f) :
    ∃ e ∈ m, e' = e ∨ e' = (e.1, f e.2) := by
  unfold mapUpdate at h
  rcases List.mem_map.mp h with ⟨e, hem, heq⟩
  refine ⟨e, hem, ?_⟩
  by_cases hek : e.1 = k
  · right
    rw [← heq, if_pos (by simpa using hek)]
  · left
    rw [← heq, if_neg (by simpa using hek)]

theorem storeWF_new : storeWF BackgroundTaskStore.new := by
  constructor
  · intro k hk
    simp [BackgroundTaskStore.new] at hk
  · simp [BackgroundTaskStore.new]

theorem storeWF_of_keys_eq {s s' : BackgroundTaskStore}
    (h : s'.tasks.map Prod.fst = s.tasks.map Prod.fst)
    (hc : s.taskCounter ≤ s'.taskCounter) (hwf : storeWF s) : storeWF s' := by
  obtain ⟨hb, hnd⟩ := hwf
  constructor
  · intro k hk
    rw [h] at hk
    have := hb k hk
    omega
  · rw [h]; exact hnd

theorem storeWF_of_sublist {s s' : BackgroundTaskStore}
    (h : s'.tasks.Sublist s.tasks) (hc : s'.taskCounter = s.taskCounter)
    (hwf : storeWF s) : storeWF s' := by
  obtain ⟨hb, hnd⟩ := hwf
  constructor
  · intro k hk
    rw [hc]
    exact hb k ((h.map Prod.fst).subset hk)
  · exact hnd.sublist (h.map Prod.fst)

theorem shutdown_tasks_fst (s : BackgroundTaskStore) (now : Nat) :
    (s.shutdown now).tasks.map Prod.fst = s.tasks.map Prod.fst := by
  rw [shutdown_tasks_eq, List.map_map]
  rfl

theorem appendOutput_tasks_fst (s : BackgroundTaskStore) (id : Nat) (ty : String)
    (d : JSStr) (now : Nat) :
    (s.appendOutput id ty d now).tasks.map Prod.fst = s.tasks.map Prod.fst := by
  unfold appendOutput
  rcases mapGet s.tasks id with _ | t
  · rfl
  · dsimp only
    split
    · rfl
    · exact mapUpdate_fst s.tasks id _

theorem appendOutput_taskCounter (s : BackgroundTaskStore) (id : Nat) (ty : String)
    (d : JSStr) (now : Nat) :
    (s.appendOutput id ty d now).taskCounter = s.taskCounter := by
  unfold appendOutput
  rcases mapGet s.tasks id with _ | t
  · rfl
  · dsimp only
    split <;> rfl

theorem getAndClearOutput_tasks_fst (s : BackgroundTaskStore) (id : Nat) :
    (s.getAndClearOutput id).1.tasks.map Prod.fst = s.tasks.map Prod.fst := by
  unfold getAndClearOutput
  rcases mapGet s.tasks id with _ | t
  · rfl
  · exact mapUpdate_fst s.tasks id _

theorem getAndClearOutput_taskCounter (s : BackgroundTaskStore) (id : Nat) :
    (s.getAndClearOutput id).1.taskCounter = s.taskCounter := by
  unfold getAndClearOutput
  rcases mapGet s.tasks id with _ | t <;> rfl

theorem createTask_fresh {s : BackgroundTaskStore} (hwf : storeWF s) :
    mapGet s.tasks (s.taskCounter + 1) = none := by
  rcases hh : mapGet s.tasks (s.taskCounter + 1) with _ | t
  · rfl
  · exfalso
    have hmem := mapGet_some_mem hh
    have := hwf.1 (s.taskCounter + 1) (List.mem_map.mpr ⟨_, hmem, rfl⟩)
    omega

theorem applyOp_storeWF {s : BackgroundTaskStore} (o : Op) (hwf : storeWF s) :
    storeWF (applyOp s o) := by
  cases o with
  | create code runtime wd now =>
    show storeWF (s.createTask code runtime wd now).1
    unfold BackgroundTaskStore.createTask
    dsimp only
    rw [mapSet_eq_append _ (createTask_fresh hwf)]
    obtain ⟨hb, hnd⟩ := hwf
    constructor
    · intro k hk
      rw [List.map_append] at hk
      rcases List.mem_append.mp hk with h1 | h1
      · have := hb k h1
        simp only
        omega
      · simp at h1
        simp only
        omega
    · simp only
      rw [List.map_append]
      refine List.Nodup.append hnd (by simp) ?_
      intro a ha hb2
      simp at hb2
      subst hb2
      have := hb _ ha
      omega
  | start id now =>
    exact storeWF_of_keys_eq (mapUpdate_fst s.tasks id _) (Nat.le_refl _) hwf
  | complete id r now =>
    exact storeWF_of_keys_eq (mapUpdate_fst s.tasks id _) (Nat.le_refl _) hwf
  | fail id msg now =>
    exact storeWF_of_keys_eq (mapUpdate_fst s.tasks id _) (Nat.le_refl _) hwf
  | append id ty d now =>
    refine storeWF_of_keys_eq (appendOutput_tasks_fst s id ty d now) ?_ hwf
    show s.taskCounter ≤ (s.appendOutput id ty d now).taskCounter
    rw [appendOutput_taskCounter]
  | getClear id =>
    refine storeWF_of_keys_eq (getAndClearOutput_tasks_fst s id) ?_ hwf
    show s.taskCounter ≤ (s.getAndClearOutput id).1.taskCounter
    rw [getAndClearOutput_taskCounter]
  | delete id =>
    exact storeWF_of_sublist (mapDelete_sublist s.tasks id) rfl hwf
  | cleanup now =>
    exact storeWF_of_sublist (cleanup_tasks_sublist s now) rfl hwf
  | shutdown now =>
    exact storeWF_of_keys_eq (shutdown_tasks_fst s now) (Nat.le_refl _) hwf

theorem appendOutput_statusOf (s : BackgroundTaskStore) (id : Nat) (ty : String)
    (d : JSStr) (now k : Nat) :
    (mapGet (s.appendOutput id ty d now).tasks k).map Task.status =
      (mapGet s.tasks k).map Task.status := by
  unfold appendOutput
  rcases h : mapGet s.tasks id with _ | t
  · rfl
  · dsimp only
    split
    · rfl
    · rw [mapGet_mapUpdate]
      by_cases hk : k = id
      · subst hk
        rw [if_pos rfl, h]
        rfl
      · rw [if_neg hk]

theorem getAndClearOutput_statusOf (s : BackgroundTaskStore) (id k : Nat) :
    (mapGet (s.getAndClearOutput id).1.tasks k).map Task.status =
      (mapGet s.tasks k).map Task.status := by
  rw [getAndClearOutput_fst_lookup]
  rcases h : mapGet s.tasks id with _ | t
  · rfl
  · dsimp only
    by_cases hk : k = id
    · subst hk
      rw [if_pos rfl, h]
      rfl
    · rw [if_neg hk]

theorem stepDAG_of_opOK {s : BackgroundTaskStore} (o : Op) (hwf : storeWF s)
    (hok : opOK s o = true) : stepDAG s o := by
  cases o with
  | create code runtime wd now =>
    intro id t t' ht ht'
    change mapGet (s.createTask code runtime wd now).1.tasks id = some t' at ht'
    rw [createTask_lookup] at ht'
    by_cases hid : id = s.taskCounter + 1
    · exfalso
      have hmem := mapGet_some_mem ht
      have := hwf.1 id (List.mem_map.mpr ⟨_, hmem, rfl⟩)
      omega
    · rw [if_neg hid, ht] at ht'
      left
      injection ht' with h
      rw [h]
  | start id2 now =>
    intro id t t' ht ht'
    change mapGet (s.startTask id2 now).tasks id = some t' at ht'
    rw [startTask_lookup] at ht'
    by_cases hid : id = id2
    · subst hid
      rw [if_pos rfl, ht] at ht'
      simp only [Option.map_some', Option.some_inj] at ht'
      subst ht'
      simp only [opOK, ht] at hok
      rcases hst : t.status with _ | _ | _ | _ <;>
        simp [hst, Status.isTerminal] at hok ⊢ <;>
        simp [startedTask, dagStep, hst]
    · rw [if_neg hid, ht] at ht'
      left
      injection ht' with h
      rw [h]
  | complete id2 r now =>
    intro id t t' ht ht'
    change mapGet (s.completeTask id2 r now).tasks id = some t' at ht'
    rw [completeTask_lookup] at ht'
    by_cases hid : id = id2
    · subst hid
      rw [if_pos rfl, ht] at ht'
      simp only [Option.map_some', Option.some_inj] at ht'
      subst ht'
      simp only [opOK, ht] at hok
      have hst : t.status = Status.running := by
        rcases h2 : t.status with _ | _ | _ | _ <;> simp_all
      right
      simp [completedTask, dagStep, hst]
    · rw [if_neg hid, ht] at ht'
      left
      injection ht' with h
      rw [h]
  | fail id2 msg now =>
    intro id t t' ht ht'
    change mapGet (s.failTask id2 msg now).tasks id = some t' at ht'
    rw [failTask_lookup] at ht'
    by_cases hid : id = id2
    · subst hid
      rw [if_pos rfl, ht] at ht'
      simp only [Option.map_some', Option.some_inj] at ht'
      subst ht'
      simp only [opOK, ht] at hok
      have hst : t.status = Status.running := by
        rcases h2 : t.status with _ | _ | _ | _ <;> simp_all
      right
      simp [failedTask, dagStep, hst]
    · rw [if_neg hid, ht] at ht'
      left
      injection ht' with h
      rw [h]
  | append id2 ty d now =>
    intro id t t' ht ht'
    change mapGet (s.appendOutput id2 ty d now).tasks id = some t' at ht'
    left
    have := appendOutput_statusOf s id2 ty d now id
    rw [ht, ht'] at this
    simpa using this.symm
  | getClear id2 =>
    intro id t t' ht ht'
    change mapGet (s.getAndClearOutput id2).1.tasks id = some t' at ht'
    left
    have := getAndClearOutput_statusOf s id2 id
    rw [ht, ht'] at this
    simpa using this.symm
  | delete id2 =>
    intro id t t' ht ht'
    change mapGet (s.deleteTask id2).tasks id = some t' at ht'
    rw [deleteTask_lookup] at ht'
    by_cases hid : id = id2
    · rw [if_pos hid] at ht'
      exact absurd ht' (by simp)
    · rw [if_neg hid, ht] at ht'
      left
      injection ht' with h
      rw [h]
  | cleanup now =>
    intro id t t' ht ht'
    left
    have hmem : (id, t') ∈ s.tasks :=
      (cleanup_tasks_sublist s now).subset (mapGet_some_mem ht')
    have := mapGet_eq_of_mem hwf.2 hmem
    rw [ht] at this
    injection this with h
    rw [h]
  | shutdown now =>
    intro id t t' ht ht'
    change mapGet (s.shutdown now).tasks id = some t' at ht'
    rw [shutdown_lookup, ht] at ht'
    simp only [Option.map_some', Option.some_inj] at ht'
    subst ht'
    simp only [opOK] at hok
    have hnp : t.status ≠ Status.pending := by
      intro hp
      have hmem := mapGet_some_mem ht
      have := List.all_eq_true.mp hok _ hmem
      simp [hp] at this
    unfold shutdownTask
    rcases hst : t.status with _ | _ | _ | _
    · exact absurd hst hnp
    · right
      simp [hst, dagStep]
    · left
      rw [if_neg (by simp [hst])]
      rw [hst]
    · left
      rw [if_neg (by simp [hst])]
      rw [hst]

theorem traceDAG_of_traceOK : ∀ (ops : List Op) (s : BackgroundTaskStore),
    storeWF s → traceOK s ops = true → traceDAG s ops := by
  intro ops
  induction ops with
  | nil => intro s _ _; trivial
  | cons o rest ih =>
    intro s hwf hok
    simp only [traceOK, Bool.and_eq_true] at hok
    exact ⟨stepDAG_of_opOK o hwf hok.1,
      ih (applyOp s o) (applyOp_storeWF o hwf) hok.2⟩

/-- C1 counterexample: the store operations do not guard status transitions.
From a fresh store, `completeTask` on a still-`pending` task moves it
directly from `pending` to `completed` (no `running` in between), and a
subsequent `startTask` moves the already-terminal `completed` task back to
`running` — both transitions the claim rules out. -/
theorem unguarded_status_transitions :
    statusOf oneTaskStore 1 = some Status.pending ∧
    statusOf (oneTaskStore.completeTask 1 {} 2) 1 = some Status.completed ∧
    statusOf ((oneTaskStore.completeTask 1 {} 2).startTask 1 3) 1 =
      some Status.running := by
  decide

/-- C1 (amended): `startTask`, `completeTask` and `failTask` set the status
unconditionally, so the transition chain is only guaranteed under the caller
protocol captured by `opOK`/`traceOK` (`startTask` only on a non-terminal
task, `completeTask`/`failTask` only on a `running` task, `shutdown` only
when no task is still `pending`).  Under that protocol, every status change
of every task along any operation sequence from the fresh store follows
`pending → running → (completed | failed)` (`dagStep`); in particular no
operation then moves a task out of a terminal status, from `pending`
directly to a terminal status, or from `running` back to `pending`. -/
theorem status_transitions_follow_dag (ops : List Op)
    (h : traceOK BackgroundTaskStore.new ops = true) :
    traceDAG BackgroundTaskStore.new ops :=
  traceDAG_of_traceOK ops BackgroundTaskStore.new storeWF_new h

/-- Witness for the amended C1 on a concrete protocol-respecting trace. -/
theorem status_transitions_follow_dag_witness :
    traceOK BackgroundTaskStore.new demoOps = true ∧
    traceDAG BackgroundTaskStore.new demoOps :=
  ⟨by decide, status_transitions_follow_dag demoOps (by decide)⟩

theorem bigChunkData_length : bigChunkData.length = 100 * 1024 + 1 := by
  show (List.replicate (100 * 1024 + 1) 'a').length = 100 * 1024 + 1
  rw [List.length_replicate]

theorem getAndClearOutput_maxOutputSize (s : BackgroundTaskStore) (id : Nat) :
    (s.getAndClearOutput id).1.maxOutputSize = s.maxOutputSize := by
  unfold getAndClearOutput
  rcases mapGet s.tasks id with _ | t <;> rfl

theorem applyOp_maxOutputSize (s : BackgroundTaskStore) (o : Op) :
    (applyOp s o).maxOutputSize = s.maxOutputSize := by
  cases o with
  | append id ty d now => exact appendOutput_maxOutputSize s id ty d now
  | getClear id => exact getAndClearOutput_maxOutputSize s id
  | _ => rfl

/-- `appendedLog` stays within the cap unless a single chunk remains. -/
theorem appendedLog_bounded (cap : Nat) (log : List Chunk) (c : Chunk) :
    logSize (appendedLog cap log c) ≤ cap ∨ (appendedLog cap log c).length = 1 := by
  unfold appendedLog
  dsimp only
  split
  · rcases trimOldest_bound (cap / 2) (log ++ [c]) with h | h
    · left
      exact h.trans (Nat.div_le_self cap 2)
    · right
      exact h
  · left
    omega

theorem logBounded_new : logBounded BackgroundTaskStore.new := by
  intro e he
  simp [BackgroundTaskStore.new] at he

theorem logBounded_of_sublist {s s' : BackgroundTaskStore}
    (ht : s'.tasks.Sublist s.tasks) (hm : s'.maxOutputSize = s.maxOutputSize)
    (h : logBounded s) : logBounded s' := by
  intro e he
  rw [hm]
  exact h e (ht.subset he)

theorem applyOp_logBounded {s : BackgroundTaskStore} (o : Op)
    (h : logBounded s) : logBounded (applyOp s o) := by
  have hm := applyOp_maxOutputSize s o
  cases o with
  | create code runtime wd now =>
    intro e he
    rw [hm]
    change e ∈ (s.createTask code runtime wd now).1.tasks at he
    unfold BackgroundTaskStore.createTask at he
    dsimp only at he
    rcases mem_mapSet he with h1 | h1
    · left
      rw [h1]
      exact Nat.zero_le _
    · exact h e h1
  | start id now =>
    intro e he
    rw [hm]
    rcases mem_mapUpdate he with ⟨e0, he0, h1 | h1⟩
    · rw [h1]; exact h e0 he0
    · rw [h1]; exact h e0 he0
  | complete id r now =>
    intro e he
    rw [hm]
    rcases mem_mapUpdate he with ⟨e0, he0, h1 | h1⟩
    · rw [h1]; exact h e0 he0
    · rw [h1]; exact h e0 he0
  | fail id msg now =>
    intro e he
    rw [hm]
    rcases mem_mapUpdate he with ⟨e0, he0, h1 | h1⟩
    · rw [h1]; exact h e0 he0
    · rw [h1]; exact h e0 he0
  | append id ty d now =>
    intro e he
    rw [hm]
    change e ∈ (s.appendOutput id ty d now).tasks at he
    unfold appendOutput at he
    rcases hg : mapGet s.tasks id with _ | task
    · rw [hg] at he
      exact h e he
    · rw [hg] at he
      dsimp only at he
      by_cases hterm : task.status ≠ Status.running ∧ task.status ≠ Status.pending
      · rw [if_pos hterm] at he
        exact h e he
      · rw [if_neg hterm] at he
        rcases mem_mapUpdate he with ⟨e0, he0, h1 | h1⟩
        · rw [h1]; exact h e0 he0
        · rw [h1]
          exact appendedLog_bounded s.maxOutputSize task.outputLog _
  | getClear id =>
    intro e he
    rw [hm]
    change e ∈ (s.getAndClearOutput id).1.tasks at he
    unfold getAndClearOutput at he
    rcases hg : mapGet s.tasks id with _ | task
    · rw [hg] at he
      exact h e he
    · rw [hg] at he
      dsimp only at he
      rcases mem_mapUpdate he with ⟨e0, he0, h1 | h1⟩
      · rw [h1]; exact h e0 he0
      · rw [h1]
        left
        exact Nat.zero_le _
  | delete id =>
    exact logBounded_of_sublist (mapDelete_sublist s.tasks id) hm h
  | cleanup now =>
    exact logBounded_of_sublist (cleanup_tasks_sublist s now) hm h
  | shutdown now =>
    intro e he
    rw [hm]
    change e ∈ (s.shutdown now).tasks at he
    rw [shutdown_tasks_eq] at he
    rcases List.mem_map.mp he with ⟨e0, he0, heq⟩
    have hlog : e.2.outputLog = e0.2.outputLog := by
      rw [← heq]
      unfold shutdownTask
      split <;> rfl
    rw [hlog]
    exact h e0 he0

theorem runOps_logBounded : ∀ (ops : List Op) (s : BackgroundTaskStore),
    logBounded s → logBounded (runOps s ops) := by
  intro ops
  induction ops with
  | nil => intro s h; exact h
  | cons o rest ih =>
    intro s h
    exact ih (applyOp s o) (applyOp_logBounded o h)

theorem runOps_maxOutputSize : ∀ (ops : List Op) (s : BackgroundTaskStore),
    (runOps s ops).maxOutputSize = s.maxOutputSize := by
  intro ops
  induction ops with
  | nil => intro s; rfl
  | cons o rest ih =>
    intro s
    rw [show runOps s (o :: rest) = runOps (applyOp s o) rest from rfl,
      ih (applyOp s o), applyOp_maxOutputSize]

/-- C3 counterexample: the reachable state obtained by creating a task and
appending one 100 KiB + 1 byte chunk has a total buffered output of
100 KiB + 1 > `MAX_TASK_OUTPUT` — the oldest-chunk eviction cannot go below
one chunk, so the claimed invariant fails. -/
theorem single_chunk_exceeds_output_cap :
    runOps BackgroundTaskStore.new
        [Op.create "console.log(1)" "nodejs" "/tmp" 1,
         Op.append 1 "stdout" bigChunkData 2] =
      oneTaskStore.appendOutput 1 "stdout" bigChunkData 2 ∧
    (mapGet (oneTaskStore.appendOutput 1 "stdout" bigChunkData 2).tasks 1).map
        (fun t => logSize t.outputLog) = some (100 * 1024 + 1) ∧
    100 * 1024 + 1 >
      (oneTaskStore.appendOutput 1 "stdout" bigChunkData 2).maxOutputSize := by
  refine ⟨rfl, ?_, ?_⟩
  · rw [appendOutput_lookup oneTaskStore 1 "stdout" bigChunkData 2 oneTask
      (by decide) (Or.inl (by decide)), if_pos rfl]
    have hbig : appendedLog oneTaskStore.maxOutputSize oneTask.outputLog
        (Chunk.mk 2 "stdout" bigChunkData) = [Chunk.mk 2 "stdout" bigChunkData] := by
      show appendedLog oneTaskStore.maxOutputSize [] _ = _
      refine appendedLog_single_oversize _ _ ?_
      show bigChunkData.length > oneTaskStore.maxOutputSize
      rw [bigChunkData_length]
      decide
    rw [hbig]
    simp only [Option.map_some']
    rw [show (withOutputLog [Chunk.mk 2 "stdout" bigChunkData] oneTask).outputLog =
        [Chunk.mk 2 "stdout" bigChunkData] from rfl]
    rw [logSize_singleton]
    show some bigChunkData.length = _
    rw [bigChunkData_length]
  · rw [appendOutput_maxOutputSize]
    decide

/-- C3 (amended): in every reachable state of the store, every task's
buffered output either totals at most `MAX_TASK_OUTPUT` (100 KiB, the
`maxOutputSize` the constructor sets and every operation preserves) or
consists of a single — possibly oversized — chunk; and whenever an
`appendOutput` pushes the total above the cap, oldest chunks are discarded
until the total is at most 50 % of the cap or only the just-appended chunk
remains. -/
theorem output_log_bounded_invariant :
    (∀ ops : List Op, logBounded (runOps BackgroundTaskStore.new ops) ∧
      (runOps BackgroundTaskStore.new ops).maxOutputSize = 100 * 1024) ∧
    (∀ (s : BackgroundTaskStore) (id : Nat) (ty : String) (d : JSStr) (now : Nat)
      (t : Task), mapGet s.tasks id = some t →
      t.status = Status.pending ∨ t.status = Status.running →
      logSize (t.outputLog ++ [Chunk.mk now ty d]) > s.maxOutputSize →
      mapGet (s.appendOutput id ty d now).tasks id =
        some (withOutputLog
          (trimOldest (s.maxOutputSize / 2) (t.outputLog ++ [Chunk.mk now ty d])) t) ∧
      (logSize (trimOldest (s.maxOutputSize / 2) (t.outputLog ++ [Chunk.mk now ty d])) ≤
          s.maxOutputSize / 2 ∨
        (trimOldest (s.maxOutputSize / 2) (t.outputLog ++ [Chunk.mk now ty d])).length
          = 1)) := by
  constructor
  · intro ops
    exact ⟨runOps_logBounded ops BackgroundTaskStore.new logBounded_new,
      runOps_maxOutputSize ops BackgroundTaskStore.new⟩
  · intro s id ty d now t ht hact hover
    constructor
    · rw [appendOutput_lookup s id ty d now t ht hact, if_pos rfl]
      have : appendedLog s.maxOutputSize t.outputLog (Chunk.mk now ty d) =
          trimOldest (s.maxOutputSize / 2) (t.outputLog ++ [Chunk.mk now ty d]) := by
        unfold appendedLog
        dsimp only
        rw [if_pos hover]
      rw [this]
    · exact trimOldest_bound _ _

/-- Witness for the amended C3: the demo trace instantiates the invariant,
and a 100 KiB + 1 byte two-chunk overflow instantiates the trim clause. -/
theorem output_log_bounded_invariant_witness :
    (logBounded (runOps BackgroundTaskStore.new demoOps) ∧
      (runOps BackgroundTaskStore.new demoOps).maxOutputSize = 100 * 1024) ∧
    (logSize (oneTask.outputLog ++ [Chunk.mk 2 "stdout" bigChunkData]) >
        oneTaskStore.maxOutputSize ∧
      (logSize (trimOldest (oneTaskStore.maxOutputSize / 2)
            (oneTask.outputLog ++ [Chunk.mk 2 "stdout" bigChunkData])) ≤
          oneTaskStore.maxOutputSize / 2 ∨
        (trimOldest (oneTaskStore.maxOutputSize / 2)
            (oneTask.outputLog ++ [Chunk.mk 2 "stdout" bigChunkData])).length = 1)) := by
  have hover : logSize (oneTask.outputLog ++ [Chunk.mk 2 "stdout" bigChunkData]) >
      oneTaskStore.maxOutputSize := by
    show logSize [Chunk.mk 2 "stdout" bigChunkData] > oneTaskStore.maxOutputSize
    rw [logSize_singleton]
    show bigChunkData.length > oneTaskStore.maxOutputSize
    rw [bigChunkData_length]
    decide
  exact ⟨output_log_bounded_invariant.1 demoOps,
    hover,
    (output_log_bounded_invariant.2 oneTaskStore 1 "stdout" bigChunkData 2 oneTask
      (by decide) (Or.inl (by decide)) hover).2⟩

/-! ### The eviction sweep -/

theorem insertByKey_perm (x : Nat × Task) (l : List (Nat × Task)) :
    (insertByKey x l).Perm (x :: l) := by
  induction l with
  | nil => exact List.Perm.refl _
  | cons y ys ih =>
    unfold insertByKey
    split
    · exact List.Perm.refl _
    · exact (List.Perm.cons y ih).trans (List.Perm.swap x y ys)

theorem sortByCompletedAt_perm (l : List (Nat × Task)) :
    (sortByCompletedAt l).Perm l := by
  induction l with
  | nil => exact List.Perm.refl _
  | cons e rest ih =>
    unfold sortByCompletedAt
    simp only [List.foldr_cons]
    exact (insertByKey_perm e _).trans (List.Perm.cons e ih)

theorem sortByCompletedAt_of_sorted (l : List (Nat × Task))
    (h : l.Pairwise (fun a b => sortKey a ≤ sortKey b)) :
    sortByCompletedAt l = l := by
  induction l with
  | nil => rfl
  | cons e rest ih =>
    unfold sortByCompletedAt
    simp only [List.foldr_cons]
    have hrest : sortByCompletedAt rest = rest := ih (List.Pairwise.sublist (by simp) h)
    unfold sortByCompletedAt at hrest
    rw [hrest]
    cases rest with
    | nil => rfl
    | cons b bs =>
      unfold insertByKey
      rw [if_pos ((List.pairwise_cons.mp h).1 b (by simp))]

theorem mapGet_evict_not_mem (maxTasks : Nat) (ids : List Nat)
    (tasks : List (Nat × Task)) (k : Nat) (h : k ∉ ids) :
    mapGet (evict maxTasks ids tasks) k = mapGet tasks k := by
  induction ids generalizing tasks with
  | nil => rfl
  | cons id rest ih =>
    unfold evict
    dsimp only
    have hk : k ≠ id := by
      intro he
      exact h (he ▸ List.mem_cons_self id rest)
    split
    · rw [mapGet_mapDelete, if_neg hk]
    · rw [ih (mapDelete tasks id) (fun hm => h (List.mem_cons.mpr (Or.inr hm))),
        mapGet_mapDelete, if_neg hk]

/-- Deleting the head key of a key-Nodup map drops exactly the head. -/
theorem mapDelete_cons_head {e : Nat × Task} {rest : List (Nat × Task)}
    (hnd : ((e :: rest).map Prod.fst).Nodup) :
    mapDelete (e :: rest) e.1 = rest := by
  simp only [List.map_cons, List.nodup_cons] at hnd
  simp only [mapDelete, List.filter_cons]
  rw [if_neg (by simp)]
  apply List.filter_eq_self.mpr
  intro a ha
  simp only [Bool.not_eq_eq_eq_not, Bool.not_true, beq_eq_false_iff_ne, ne_eq]
  intro hae
  exact hnd.1 (hae ▸ List.mem_map.mpr ⟨a, ha, rfl⟩)

/-- C6: the eviction sweep never deletes a `pending` or `running` task, and a
store (with unique keys, as every `Map` has) holding `maxTasks + 1` freshly
completed tasks in oldest-first `completed_at` order is reduced by `cleanup`
to exactly `maxTasks` tasks by evicting the first (oldest) one. -/
theorem cleanup_keeps_live_and_evicts_oldest :
    (∀ (s : BackgroundTaskStore) (now id : Nat) (t : Task),
      (s.tasks.map Prod.fst).Nodup → mapGet s.tasks id = some t →
      t.status = Status.pending ∨ t.status = Status.running →
      mapGet (s.cleanup now).tasks id = some t) ∧
    (∀ (s : BackgroundTaskStore) (now : Nat),
      (s.tasks.map Prod.fst).Nodup →
      s.tasks.length = s.maxTasks + 1 →
      (∀ e ∈ s.tasks, e.2.status = Status.completed) →
      (∀ e ∈ s.tasks, now - e.2.completedAt.getD 0 ≤ s.maxAge) →
      s.tasks.Pairwise (fun a b => sortKey a ≤ sortKey b) →
      (s.cleanup now).tasks = s.tasks.drop 1 ∧
      (s.cleanup now).tasks.length = s.maxTasks) := by
  constructor
  · intro s now id t hnd ht hlive
    have hterm : t.status.isTerminal = false := by
      rcases hlive with h | h <;> simp [h, Status.isTerminal]
    unfold BackgroundTaskStore.cleanup
    dsimp only
    have hmemA : (id, t) ∈ s.tasks.filter (fun e =>
        !(e.2.status.isTerminal && completedAtTruthy e.2.completedAt &&
          decide (now - e.2.completedAt.getD 0 > s.maxAge))) := by
      refine List.mem_filter.mpr ⟨mapGet_some_mem ht, ?_⟩
      simp [hterm]
    have hndA : ((s.tasks.filter (fun e =>
        !(e.2.status.isTerminal && completedAtTruthy e.2.completedAt &&
          decide (now - e.2.completedAt.getD 0 > s.maxAge)))).map Prod.fst).Nodup :=
      hnd.sublist ((List.filter_sublist s.tasks).map Prod.fst)
    have hgetA := mapGet_eq_of_mem hndA hmemA
    split
    · rw [mapGet_evict_not_mem, hgetA]
      intro hin
      rcases List.mem_map.mp hin with ⟨e', he', hfst⟩
      have he'2 := ((sortByCompletedAt_perm _).mem_iff).mp he'
      rcases List.mem_filter.mp he'2 with ⟨he'3, hterm'⟩
      have he'4 := (List.filter_sublist s.tasks).subset he'3
      have he'5 : (id, e'.2) ∈ s.tasks := by
        rw [← hfst]
        exact he'4
      have hgid := mapGet_eq_of_mem hnd he'5
      rw [ht] at hgid
      injection hgid with hteq
      rw [← hteq, hterm] at hterm'
      exact Bool.false_ne_true hterm'
    · exact hgetA
  · intro s now hnd hlen hall hfresh hsorted
    have hAfter : s.tasks.filter (fun e =>
        !(e.2.status.isTerminal && completedAtTruthy e.2.completedAt &&
          decide (now - e.2.completedAt.getD 0 > s.maxAge))) = s.tasks := by
      apply List.filter_eq_self.mpr
      intro e he
      have hf := hfresh e he
      have hd : decide (now - e.2.completedAt.getD 0 > s.maxAge) = false := by
        simp
        omega
      simp [hd]
    have hTermFilter : s.tasks.filter (fun e => e.2.status.isTerminal) = s.tasks := by
      apply List.filter_eq_self.mpr
      intro e he
      rw [hall e he]
      rfl
    have hMain : (s.cleanup now).tasks = s.tasks.drop 1 := by
      unfold BackgroundTaskStore.cleanup
      dsimp only
      rw [hAfter, hTermFilter, sortByCompletedAt_of_sorted s.tasks hsorted,
        if_pos (by omega)]
      cases hts : s.tasks with
      | nil =>
        rw [hts] at hlen
        simp at hlen
      | cons e rest =>
        rw [hts] at hnd hlen
        unfold evict
        dsimp only
        simp only [List.map_cons]
        rw [show mapDelete (e :: rest) e.1 = rest from mapDelete_cons_head hnd]
        rw [if_pos (by simp at hlen; omega)]
        rfl
    refine ⟨hMain, ?_⟩
    rw [hMain, List.length_drop, hlen]
    omega

set_option maxRecDepth 4000 in
/-- Witness for C6: a live task survives the sweep, and the sweep on 1001
freshly completed tasks at the default caps drops exactly the oldest one. -/
theorem cleanup_keeps_live_and_evicts_oldest_witness :
    mapGet (oneTaskStore.cleanup 99).tasks 1 = some oneTask ∧
    (manyCompletedStore.cleanup 0).tasks = manyCompletedStore.tasks.drop 1 ∧
    (manyCompletedStore.cleanup 0).tasks.length = manyCompletedStore.maxTasks := by
  have htasks : manyCompletedStore.tasks = (List.range 1001).map completedEntry := rfl
  have hnd : (manyCompletedStore.tasks.map Prod.fst).Nodup := by
    rw [htasks, List.map_map]
    refine List.Nodup.map ?_ (List.nodup_range 1001)
    intro a b hab
    have : a + 1 = b + 1 := hab
    omega
  have hlen : manyCompletedStore.tasks.length = manyCompletedStore.maxTasks + 1 := by
    rw [htasks, List.length_map, List.length_range]
    rfl
  have hall : ∀ e ∈ manyCompletedStore.tasks, e.2.status = Status.completed := by
    intro e he
    rw [htasks] at he
    rcases List.mem_map.mp he with ⟨i, _, rfl⟩
    rfl
  have hfresh : ∀ e ∈ manyCompletedStore.tasks,
      0 - e.2.completedAt.getD 0 ≤ manyCompletedStore.maxAge := by
    intro e _
    simp
  have hsorted : manyCompletedStore.tasks.Pairwise
      (fun a b => sortKey a ≤ sortKey b) := by
    rw [htasks]
    refine List.pairwise_map.mpr ?_
    refine List.Pairwise.imp ?_ (List.pairwise_lt_range 1001)
    intro a b hab
    show sortKey (completedEntry a) ≤ sortKey (completedEntry b)
    show a + 1 ≤ b + 1
    omega
  have h2 := cleanup_keeps_live_and_evicts_oldest.2 manyCompletedStore 0
    hnd hlen hall hfresh hsorted
  exact ⟨cleanup_keeps_live_and_evicts_oldest.1 oneTaskStore 99 1 oneTask
      (by decide) (by decide) (Or.inl (by decide)),
    h2.1, h2.2⟩

end Glootie
